import Mathlib

/-!
Shallow embedding of the yeying-web3 pairing/session core:
the Pairing URI codec (src/shared/utils/pairing-uri.ts), the pairing store
(src/shared/store/PairingStore.ts), the PairingManager and SessionManager
engines (src/shared/core/CryptoManager.ts) and the session store.
External collaborators (relay transport, Web Crypto, timers) are modelled as
explicit parameters: current time `now_ms` in milliseconds, generated keys as
inputs, relay publish/subscribe outcomes as booleans, and the crypto provider
as a record of string functions.
-/

namespace YeyingWeb3

/-! ### Association-list finite maps (JS `Map` semantics for get/set/delete) -/

def mapGet {κ α : Type} [DecidableEq κ] (m : List (κ × α)) (k : κ) : Option α :=
  (m.find? (fun kv => decide (kv.1 = k))).map (·.2)

def mapSet {κ α : Type} [DecidableEq κ] (m : List (κ × α)) (k : κ) (v : α) : List (κ × α) :=
  (m.filter (fun kv => decide (kv.1 ≠ k))) ++ [(k, v)]

def mapDel {κ α : Type} [DecidableEq κ] (m : List (κ × α)) (k : κ) : List (κ × α) :=
  m.filter (fun kv => decide (kv.1 ≠ k))

def mapValues {κ α : Type} (m : List (κ × α)) : List α := m.map (·.2)

/-! ### Character-list string utilities (JS `String.prototype.split` etc.) -/

/-- JS `s.split(c)`: all fragments, including empty ones. `splitOnChar c [] = [[]]`. -/
def splitOnChar (c : Char) : List Char → List (List Char)
  | [] => [[]]
  | x :: xs =>
    match splitOnChar c xs with
    | [] => [[]]
    | h :: t => if x = c then [] :: h :: t else (x :: h) :: t

/-- Break a list at the first occurrence of `c`: part before, and (if found) part after. -/
def breakAtFirst (c : Char) : List Char → List Char × Option (List Char)
  | [] => ([], none)
  | x :: xs =>
    if x = c then ([], some xs)
    else
      let r := breakAtFirst c xs
      (x :: r.1, r.2)

/-! ### application/x-www-form-urlencoded (the `URLSearchParams` platform API)

`URLSearchParams` is an external Web API; it is modelled here following the
WHATWG urlencoded serializer/parser.  The percent-decoder is modelled at the
character level (one byte = one char), exact for the ASCII fragment; multi-byte
UTF-8 reassembly is not modelled since every value the repository feeds through
it (hex keys, protocol names) is ASCII. -/

def isUrlUnreserved (c : Char) : Bool :=
  c.isAlphanum || c == '*' || c == '-' || c == '.' || c == '_'

def toHexDigit (n : Nat) : Char :=
  if n < 10 then Char.ofNat (48 + n) else Char.ofNat (55 + n)

def utf8Bytes (c : Char) : List Nat :=
  let n := c.toNat
  if n < 0x80 then [n]
  else if n < 0x800 then [0xC0 + n / 64, 0x80 + n % 64]
  else if n < 0x10000 then [0xE0 + n / 4096, 0x80 + (n / 64) % 64, 0x80 + n % 64]
  else [0xF0 + n / 262144, 0x80 + (n / 4096) % 64, 0x80 + (n / 64) % 64, 0x80 + n % 64]

def percentEncodeChar (c : Char) : List Char :=
  if isUrlUnreserved c then [c]
  else if c == ' ' then ['+']
  else (utf8Bytes c).foldr (fun b acc => '%' :: toHexDigit (b / 16) :: toHexDigit (b % 16) :: acc) []

def formUrlEncode : List Char → List Char
  | [] => []
  | c :: rest => percentEncodeChar c ++ formUrlEncode rest

def hexVal (c : Char) : Option Nat :=
  if c.isDigit then some (c.toNat - 48)
  else if 'A' ≤ c ∧ c ≤ 'F' then some (c.toNat - 55)
  else if 'a' ≤ c ∧ c ≤ 'f' then some (c.toNat - 87)
  else none

def percentDecode : List Char → List Char
  | [] => []
  | [c] => if c = '+' then [' '] else [c]
  | [c, c2] =>
    if c = '+' then ' ' :: percentDecode [c2] else c :: percentDecode [c2]
  | c :: h1 :: h2 :: rest =>
    if c = '+' then ' ' :: percentDecode (h1 :: h2 :: rest)
    else if c = '%' then
      match hexVal h1, hexVal h2 with
      | some v1, some v2 => Char.ofNat (16 * v1 + v2) :: percentDecode rest
      | _, _ => '%' :: percentDecode (h1 :: h2 :: rest)
    else c :: percentDecode (h1 :: h2 :: rest)

/-- One `name=value` fragment of a urlencoded query. -/
def parsePair (p : List Char) : List Char × List Char :=
  match breakAtFirst '=' p with
  | (name, some value) => (percentDecode name, percentDecode value)
  | (name, none) => (percentDecode name, [])

def searchParamsList (q : List Char) : List (List Char × List Char) :=
  ((splitOnChar '&' q).filter (fun p => decide (p ≠ []))).map parsePair

/-- `new URLSearchParams(q)`: a single leading `?` is stripped. -/
def searchParamsParse (q : List Char) : List (List Char × List Char) :=
  match q with
  | '?' :: rest => searchParamsList rest
  | _ => searchParamsList q

/-- `params.get(name)`: first matching value, `null` (`none`) when absent. -/
def spGet (l : List (List Char × List Char)) (name : List Char) : Option (List Char) :=
  (l.find? (fun kv => decide (kv.1 = name))).map (·.2)

/-- JS falsiness of `undefined`/`null`/`""` for an optional string. -/
def jsFalsy (o : Option (List Char)) : Bool :=
  match o with
  | none => true
  | some [] => true
  | some _ => false

/-! ### Data model (src/shared/types/pairing.ts, session.ts, relay.ts) -/

structure RelayProtocol where
  protocol : String
  data : Option String := none
deriving DecidableEq, Repr

inductive PairingStatus
  | pending
  | active
  | deleted
deriving DecidableEq, Repr

structure AppMetadata where
  name : String
  description : String
  url : String
  icons : List String
deriving DecidableEq, Repr

structure Participant where
  publicKey : String
  appMetadata : Option AppMetadata := none
deriving DecidableEq, Repr

structure Pairing where
  topic : String
  relay : RelayProtocol
  self : Participant
  peer : Participant
  status : PairingStatus
  expiry : Nat
  createdAt : Nat
  updatedAt : Nat
  initiator : Bool
deriving DecidableEq, Repr

structure PairingURI where
  topic : String
  version : Int
  symKey : String
  relay : RelayProtocol
deriving DecidableEq, Repr

structure CreatePairingParams where
  relay : Option RelayProtocol := none
  appMetadata : Option AppMetadata := none
  expiry : Option Nat := none
deriving DecidableEq, Repr

structure PairingApproveParams where
  relay : RelayProtocol
  responder : Participant
  expiry : Nat
deriving DecidableEq, Repr

structure Reason where
  code : Nat
  message : String
deriving DecidableEq, Repr

structure KeyPair where
  publicKey : String
  privateKey : String
deriving DecidableEq, Repr

/-! ### Pairing URI codec (src/shared/utils/pairing-uri.ts) -/

namespace PairingURIUtil

def PROTOCOL : String := "wc"

def VERSION : Nat := 2

/-- `PairingURIUtil.encode`: `wc:{topic}@{version}?relay-protocol={p}&symKey={k}[&relay-data={d}]`,
with the query serialized by `URLSearchParams`.  Throws on missing parameters. -/
def encode (topic symKey : String) (relay : RelayProtocol) : Except String String :=
  if topic = "" || symKey = "" then
    .error "Missing required parameters for URI encoding"
  else
    let base := "relay-protocol=".data ++ formUrlEncode relay.protocol.data
      ++ "&symKey=".data ++ formUrlEncode symKey.data
    let q := match relay.data with
      | some d => base ++ "&relay-data=".data ++ formUrlEncode d.data
      | none => base
    .ok (String.mk ("wc:".data ++ topic.data
      ++ ('@' :: (toString VERSION).data) ++ ('?' :: q)))

/-- Leading-digit run of JS `parseInt(_, 10)`; `none` encodes NaN. -/
def leadDigits (s : List Char) : Option Nat :=
  let ds := s.takeWhile Char.isDigit
  if ds = [] then none
  else some (ds.foldl (fun acc c => 10 * acc + (c.toNat - 48)) 0)

/-- JS `parseInt(s, 10)`: skip whitespace, optional sign, longest digit prefix; NaN = `none`. -/
def parseIntJS (s : List Char) : Option Int :=
  let s1 := s.dropWhile (fun c => c.isWhitespace)
  match s1 with
  | '-' :: rest => (leadDigits rest).map (fun n => -(n : Int))
  | '+' :: rest => (leadDigits rest).map (fun n => (n : Int))
  | _ => (leadDigits s1).map (fun n => (n : Int))

/-- The body of `decode` after the `wc:` protocol prefix has been stripped
(factored out of `decode` so proofs can address it directly). -/
def decodeBody (content : List Char) : Except String PairingURI :=
  let parts := splitOnChar '?' content
  let topicVersion? := parts.get? 0
  let queryString? := parts.get? 1
  if jsFalsy topicVersion? || jsFalsy queryString? then
    .error "Failed to parse URI: Invalid URI format"
  else
    let topicVersion := topicVersion?.getD []
    let queryString := queryString?.getD []
    let tv := splitOnChar '@' topicVersion
    let topic? := tv.get? 0
    let versionStr? := tv.get? 1
    if jsFalsy topic? || jsFalsy versionStr? then
      .error "Failed to parse URI: Missing topic or version"
    else
      match parseIntJS (versionStr?.getD []) with
      | none => .error "Failed to parse URI: Unsupported version"
      | some v =>
        if v ≠ (VERSION : Int) then
          .error "Failed to parse URI: Unsupported version"
        else
          let ps := searchParamsParse queryString
          let relayProtocol? := spGet ps "relay-protocol".data
          let symKey? := spGet ps "symKey".data
          let relayData? := spGet ps "relay-data".data
          if jsFalsy relayProtocol? || jsFalsy symKey? then
            .error "Failed to parse URI: Missing required query parameters"
          else
            .ok {
              topic := String.mk (topic?.getD [])
              version := v
              symKey := String.mk (symKey?.getD [])
              relay := {
                protocol := String.mk (relayProtocol?.getD [])
                data := match relayData? with
                  | none => none
                  | some [] => none
                  | some d => some (String.mk d) } }

/-- `PairingURIUtil.decode`.  All throw paths are collapsed by the source's
outer `catch` into `Failed to parse URI: ...`; we keep the distinct messages. -/
def decode (uri : String) : Except String PairingURI :=
  match uri.data with
  | 'w' :: 'c' :: ':' :: content => decodeBody content
  | _ => .error "Failed to parse URI: Invalid protocol"

end PairingURIUtil

/-! ### Pairing store (src/shared/store/PairingStore.ts)

The backing `localStorage` persistence is external; the in-memory cache (a JS
`Map` keyed by topic) is the observable state.  `now_s` is the current unix
time in seconds (`Math.floor(Date.now() / 1000)`). -/

namespace PairingStore

def isExpired (now_s : Nat) (p : Pairing) : Bool := decide (p.expiry < now_s)

/-- `PairingStore.set`: validates, stamps `updatedAt`, writes the cache. -/
def set (cache : List (String × Pairing)) (now_ms : Nat) (topic : String) (p : Pairing) :
    Except String (List (String × Pairing)) :=
  if topic = "" then .error "Invalid pairing data"
  else if topic ≠ p.topic then .error "Topic mismatch"
  else .ok (mapSet cache topic { p with updatedAt := now_ms })

/-- `PairingStore.get`: lazily deletes an expired record and reports it absent. -/
def get (cache : List (String × Pairing)) (now_s : Nat) (topic : String) :
    Option Pairing × List (String × Pairing) :=
  match mapGet cache topic with
  | none => (none, cache)
  | some p => if isExpired now_s p then (none, mapDel cache topic) else (some p, cache)

/-- `PairingStore.getAll`: filters out expired records. -/
def getAll (cache : List (String × Pairing)) (now_s : Nat) : List Pairing :=
  (mapValues cache).filter (fun p => !isExpired now_s p)

end PairingStore

/-! ### Wire messages and local events -/

inductive MsgPayload
  | empty
  | pairingApprove (responder : Participant) (expiry : Nat)
  | reason (code : Nat) (message : String)
  | appMeta (md : AppMetadata)
deriving DecidableEq, Repr

structure WireMsg where
  topic : String
  method : String
  payload : MsgPayload := .empty
deriving DecidableEq, Repr

/-! ### PairingManager (src/shared/core/CryptoManager.ts, class PairingManager)

State: the pairing store cache, the symKey cache, the set of subscribed topics
and the topics carrying a pending approval waiter.  Relay outcomes are injected
as booleans (`subOk` for subscribe, `pubOk` for publish); the crypto provider
is a record of string functions. -/

structure CryptoOracle where
  hash : String → String
  generateSharedKey : String → String → String

structure PMState where
  store : List (String × Pairing)
  symKeys : List (String × String)
  subs : List String
  pendingApprovals : List String
deriving DecidableEq, Repr

/-- Result of a PairingManager operation: new state, messages published on the
relay, locally emitted events (by name), and the returned value or thrown error. -/
structure PMRes (α : Type) where
  state : PMState
  published : List WireMsg
  events : List String
  result : Except String α
deriving Repr

namespace PairingManager

def DEFAULT_EXPIRY : Nat := 30 * 24 * 60 * 60

def APPROVAL_TIMEOUT : Nat := 5 * 60 * 1000

def DEFAULT_RELAY : RelayProtocol := { protocol := "irn" }

/-- `PairingManager.create` (DApp side): keypair and symKey are the crypto
provider's outputs, `topic = hash(publicKey)`; builds a PENDING pairing with
empty peer key, persists, subscribes, encodes the URI, registers the approval
waiter, emits CREATED.  Returns `(topic, uri, pairing)`. -/
def create (crypto : CryptoOracle) (st : PMState) (now_ms : Nat)
    (publicKey symKey : String) (params : CreatePairingParams)
    (defaultMeta : AppMetadata) (subOk : Bool) : PMRes (String × String × Pairing) :=
  let topic := crypto.hash publicKey
  let expiry := now_ms / 1000 + params.expiry.getD DEFAULT_EXPIRY
  let pairing : Pairing := {
    topic := topic
    relay := params.relay.getD DEFAULT_RELAY
    self := { publicKey := publicKey, appMetadata := some (params.appMetadata.getD defaultMeta) }
    peer := { publicKey := "", appMetadata := none }
    status := .pending
    expiry := expiry
    createdAt := now_ms
    updatedAt := now_ms
    initiator := true }
  match PairingStore.set st.store now_ms topic pairing with
  | .error e => ⟨st, [], [], .error e⟩
  | .ok store1 =>
    let st1 := { st with store := store1, symKeys := mapSet st.symKeys topic symKey }
    if subOk then
      let st2 := { st1 with subs := topic :: st1.subs }
      match PairingURIUtil.encode topic symKey pairing.relay with
      | .error e => ⟨st2, [], [], .error e⟩
      | .ok uri =>
        let st3 := { st2 with pendingApprovals := topic :: st2.pendingApprovals }
        ⟨st3, [], ["pairing_created"], .ok (topic, uri, pairing)⟩
    else ⟨st1, [], [], .error "Relay subscribe failed"⟩

/-- `PairingManager.activate` (Wallet side): decodes the URI, rejects an
existing record, caches the symKey, subscribes, persists an ACTIVE pairing
with empty peer key, publishes APPROVE, emits ACTIVATED.  Any failure inside
the `try` deletes the (possibly persisted) record before rethrowing. -/
def activate (st : PMState) (now_ms : Nat) (uri : String) (appMeta : AppMetadata)
    (publicKey : String) (subOk pubOk : Bool) : PMRes Pairing :=
  match PairingURIUtil.decode uri with
  | .error e => ⟨st, [], [], .error e⟩
  | .ok parsed =>
    let now_s := now_ms / 1000
    let gotten := PairingStore.get st.store now_s parsed.topic
    let st0 : PMState := { st with store := gotten.2 }
    match gotten.1 with
    | some _ => ⟨st0, [], [], .error "Pairing already exists"⟩
    | none =>
      let st1 := { st0 with symKeys := mapSet st0.symKeys parsed.topic parsed.symKey }
      if subOk then
        let st2 := { st1 with subs := parsed.topic :: st1.subs }
        let expiry := now_s + DEFAULT_EXPIRY
        let pairing : Pairing := {
          topic := parsed.topic
          relay := parsed.relay
          self := { publicKey := publicKey, appMetadata := some appMeta }
          peer := { publicKey := "", appMetadata := none }
          status := .active
          expiry := expiry
          createdAt := now_ms
          updatedAt := now_ms
          initiator := false }
        match PairingStore.set st2.store now_ms parsed.topic pairing with
        | .error e => ⟨{ st2 with store := mapDel st2.store parsed.topic }, [], [], .error e⟩
        | .ok store2 =>
          let st3 := { st2 with store := store2 }
          if pubOk then
            let msg : WireMsg := {
              topic := parsed.topic
              method := "wc_pairingApprove"
              payload := .pairingApprove { publicKey := publicKey, appMetadata := some appMeta } expiry }
            ⟨st3, [msg], ["pairing_activated"], .ok pairing⟩
          else
            ⟨{ st3 with store := mapDel st3.store parsed.topic }, [], [], .error "Relay publish failed"⟩
      else
        ⟨{ st1 with store := mapDel st1.store parsed.topic }, [], [], .error "Relay subscribe failed"⟩

/-- `PairingManager.approve` (inbound APPROVE handler): no-op unless the
pairing exists and is PENDING; else adopts the responder as peer, flips to
ACTIVE, takes over the message's expiry, persists, resolves the waiter,
emits APPROVED.  Returns the stored record (for the mutating path). -/
def approve (st : PMState) (now_ms : Nat) (topic : String)
    (params : PairingApproveParams) : PMRes (Option Pairing) :=
  let now_s := now_ms / 1000
  let gotten := PairingStore.get st.store now_s topic
  let st0 : PMState := { st with store := gotten.2 }
  match gotten.1 with
  | none => ⟨st0, [], [], .error "Pairing not found"⟩
  | some pairing =>
    if pairing.status ≠ PairingStatus.pending then
      ⟨st0, [], [], .ok none⟩
    else
      let updated := { pairing with
        peer := params.responder
        status := PairingStatus.active
        expiry := params.expiry
        updatedAt := now_ms }
      match PairingStore.set st0.store now_ms topic updated with
      | .error e => ⟨st0, [], [], .error e⟩
      | .ok store1 =>
        let st1 := { st0 with
          store := store1
          pendingApprovals := st0.pendingApprovals.filter (fun t => decide (t ≠ topic)) }
        ⟨st1, [], ["pairing_approved"], .ok (some updated)⟩

/-- `PairingManager.cleanupPairing`: remove the record, unsubscribe, drop the
cached symKey; its own failures are swallowed by the source. -/
def cleanupPairing (st : PMState) (topic : String) : PMState :=
  { st with
    store := mapDel st.store topic
    subs := st.subs.filter (fun t => decide (t ≠ topic))
    symKeys := mapDel st.symKeys topic }

/-- `PairingManager.reject`: publishes REJECT (a publish failure propagates —
the call is not wrapped), then cleans up, rejects the waiter, emits REJECTED. -/
def reject (st : PMState) (now_ms : Nat) (topic reason : String) (pubOk : Bool) : PMRes Unit :=
  let now_s := now_ms / 1000
  let gotten := PairingStore.get st.store now_s topic
  let st0 : PMState := { st with store := gotten.2 }
  match gotten.1 with
  | none => ⟨st0, [], [], .error "Pairing not found"⟩
  | some _ =>
    if pubOk then
      let msg : WireMsg := { topic := topic, method := "wc_pairingReject", payload := .reason 5000 reason }
      let st1 := cleanupPairing st0 topic
      let st2 := { st1 with pendingApprovals := st1.pendingApprovals.filter (fun t => decide (t ≠ topic)) }
      ⟨st2, [msg], ["pairing_rejected"], .ok ()⟩
    else
      ⟨st0, [], [], .error "Relay publish failed"⟩

/-- `PairingManager.delete`: no-op when absent; the DELETE publish is wrapped in
`try`/`catch`, so a transport failure is swallowed and cleanup still runs. -/
def delete (st : PMState) (now_ms : Nat) (topic reason : String) (pubOk : Bool) : PMRes Unit :=
  let now_s := now_ms / 1000
  let gotten := PairingStore.get st.store now_s topic
  let st0 : PMState := { st with store := gotten.2 }
  match gotten.1 with
  | none => ⟨st0, [], [], .ok ()⟩
  | some _ =>
    let published :=
      if pubOk then [({ topic := topic, method := "wc_pairingDelete", payload := .reason 6000 reason } : WireMsg)]
      else []
    let st1 := cleanupPairing st0 topic
    ⟨st1, published, ["pairing_deleted"], .ok ()⟩

/-- `PairingManager.update`: valid only on an ACTIVE pairing; replaces own
metadata, persists, publishes UPDATE, emits UPDATED. -/
def update (st : PMState) (now_ms : Nat) (topic : String) (appMeta : AppMetadata)
    (pubOk : Bool) : PMRes Unit :=
  let now_s := now_ms / 1000
  let gotten := PairingStore.get st.store now_s topic
  let st0 : PMState := { st with store := gotten.2 }
  match gotten.1 with
  | none => ⟨st0, [], [], .error "Pairing not found"⟩
  | some pairing =>
    if pairing.status ≠ PairingStatus.active then
      ⟨st0, [], [], .error "Pairing is not active"⟩
    else
      let updated := { pairing with
        self := { pairing.self with appMetadata := some appMeta }
        updatedAt := now_ms }
      match PairingStore.set st0.store now_ms topic updated with
      | .error e => ⟨st0, [], [], .error e⟩
      | .ok store1 =>
        let st1 := { st0 with store := store1 }
        if pubOk then
          ⟨st1, [{ topic := topic, method := "wc_pairingUpdate", payload := .appMeta appMeta }],
            ["pairing_updated"], .ok ()⟩
        else
          ⟨st1, [], [], .error "Relay publish failed"⟩

end PairingManager

/-! ### Session data model (src/shared/types/session.ts) -/

structure SessionRedirect where
  native : Option String := none
  universal : Option String := none
deriving DecidableEq, Repr

structure SessionMetadata where
  name : String
  description : String
  url : String
  icons : List String
  verifyUrl : Option String := none
  redirect : Option SessionRedirect := none
deriving DecidableEq, Repr

structure SessionNamespace where
  chains : List String
  methods : List String
  events : List String
  accounts : Option (List String) := none
deriving DecidableEq, Repr

/-- `SessionNamespaces`: a string-keyed object of namespaces. -/
abbrev SessionNamespaces := List (String × SessionNamespace)

inductive SessionStatus
  | proposed
  | settled
  | disconnected
  | expired
deriving DecidableEq, Repr

structure SessionPeer where
  publicKey : String
  metadata : SessionMetadata
deriving DecidableEq, Repr

structure SessionProposal where
  proposalId : Nat
  pairingTopic : String
  proposer : SessionPeer
  requiredNamespaces : SessionNamespaces
  optionalNamespaces : Option SessionNamespaces := none
  relay : RelayProtocol
  relays : Option (List RelayProtocol) := none
  expiryTimestamp : Nat
deriving DecidableEq, Repr

structure SessionData where
  topic : String
  pairingTopic : String
  relay : RelayProtocol
  expiry : Nat
  acknowledged : Bool
  controller : String
  namespaces : SessionNamespaces
  requiredNamespaces : SessionNamespaces
  optionalNamespaces : Option SessionNamespaces := none
  self : SessionPeer
  peer : SessionPeer
  status : SessionStatus
  createdAt : Nat
  updatedAt : Nat
  proposalId : Option Nat := none
deriving DecidableEq, Repr

structure SessionError where
  code : Nat
  message : String
deriving DecidableEq, Repr

namespace SessionErrorCode

def PROPOSAL_EXPIRED : Nat := 1001
def PROPOSAL_NOT_FOUND : Nat := 1002
def SESSION_NOT_FOUND : Nat := 2000
def SESSION_SETTLED : Nat := 2002
def UNSUPPORTED_CHAINS : Nat := 3000
def UNSUPPORTED_METHODS : Nat := 3001
def UNSUPPORTED_EVENTS : Nat := 3002
def UNSUPPORTED_ACCOUNTS : Nat := 3003
def INVALID_METHOD : Nat := 4001
def UNKNOWN_ERROR : Nat := 9999

end SessionErrorCode

structure ApproveSessionParams where
  proposalId : Nat
  namespaces : SessionNamespaces
  relayProtocol : Option String := none
  accounts : Option (List String) := none
deriving DecidableEq, Repr

structure SessionUpdate where
  topic : String
  namespaces : SessionNamespaces
deriving DecidableEq, Repr

structure SessionExtend where
  topic : String
  expiry : Nat
deriving DecidableEq, Repr

/-- Errors surfaced by SessionManager operations: a typed `SessionError`, or a
plain thrown `Error` (relay/pairing failures) carrying its message. -/
inductive SMErr
  | session (e : SessionError)
  | thrown (msg : String)
deriving DecidableEq, Repr

/-! ### SessionManager (src/shared/core/CryptoManager.ts, class SessionManager)

State: the session store (a plain in-memory map, src SessionStore), the
proposal store keyed by id, and the pending request waiters keyed by id (value:
the waiter's deadline in ms, i.e. registration time + REQUEST_TIMEOUT). -/

structure SMState where
  sessions : List (String × SessionData)
  proposals : List (Nat × SessionProposal)
  pendingRequests : List (Nat × Nat)
deriving DecidableEq, Repr

structure SMRes (α : Type) where
  state : SMState
  published : List WireMsg
  events : List String
  result : Except SMErr α
deriving Repr

namespace SessionManager

def SESSION_EXPIRY : Nat := 7 * 24 * 60 * 60

def PROPOSAL_EXPIRY : Nat := 5 * 60

def REQUEST_TIMEOUT : Nat := 5 * 60 * 1000

/-- `calcExpiry` (src/shared/utils/helpers.ts): `Date.now() + seconds * 1000`. -/
def calcExpiry (now_ms seconds : Nat) : Nat := now_ms + seconds * 1000

/-- `SessionManager.isValidAccount`: CAIP-10, `namespace:chainId:address`,
exactly three non-empty colon-separated parts. -/
def isValidAccount (account : String) : Bool :=
  if account = "" then false
  else
    let parts := splitOnChar ':' account.data
    match parts with
    | [ns, chainId, addr] => !ns.isEmpty && !chainId.isEmpty && !addr.isEmpty
    | _ => false

/-- Object lookup `namespaces[key]`. -/
def nsGet (nss : SessionNamespaces) (key : String) : Option SessionNamespace :=
  mapGet nss key

/-- The per-key body of `validateNamespaces`' required loop. -/
def validateOne (nss : SessionNamespaces) (key : String) (r : SessionNamespace) :
    Except SessionError Unit :=
  match nsGet nss key with
  | none => .error ⟨SessionErrorCode.UNSUPPORTED_CHAINS, "Required namespace missing: " ++ key⟩
  | some ns =>
    let missingChains := r.chains.filter (fun c => !ns.chains.contains c)
    if missingChains.isEmpty then
      let missingMethods := r.methods.filter (fun m => !ns.methods.contains m)
      if missingMethods.isEmpty then
        let missingEvents := r.events.filter (fun e => !ns.events.contains e)
        if missingEvents.isEmpty then .ok ()
        else .error ⟨SessionErrorCode.UNSUPPORTED_EVENTS,
          "Missing required events: " ++ String.intercalate ", " missingEvents⟩
      else .error ⟨SessionErrorCode.UNSUPPORTED_METHODS,
        "Missing required methods: " ++ String.intercalate ", " missingMethods⟩
    else .error ⟨SessionErrorCode.UNSUPPORTED_CHAINS,
      "Missing required chains: " ++ String.intercalate ", " missingChains⟩

def validateRequired (req : List (String × SessionNamespace)) (nss : SessionNamespaces) :
    Except SessionError Unit :=
  match req with
  | [] => .ok ()
  | (key, r) :: rest =>
    match validateOne nss key r with
    | .error e => .error e
    | .ok _ => validateRequired rest nss

def validateAccountList (accounts : List String) : Except SessionError Unit :=
  match accounts with
  | [] => .ok ()
  | a :: rest =>
    if isValidAccount a then validateAccountList rest
    else .error ⟨SessionErrorCode.UNSUPPORTED_ACCOUNTS, "Invalid account format: " ++ a⟩

def validateAccounts (nss : SessionNamespaces) : Except SessionError Unit :=
  match nss with
  | [] => .ok ()
  | (_, ns) :: rest =>
    match ns.accounts with
    | none =>
      validateAccounts rest
    | some accounts =>
      match validateAccountList accounts with
      | .error e => .error e
      | .ok _ => validateAccounts rest

/-- `SessionManager.validateNamespaces`: required coverage per key
(namespace key, chains, methods, events — each its own error), then CAIP-10
account format over every granted namespace. -/
def validateNamespaces (nss : SessionNamespaces) (required : Option SessionNamespaces) :
    Except SessionError Unit :=
  match (match required with
         | some req => validateRequired req nss
         | none => .ok ()) with
  | .error e => .error e
  | .ok _ => validateAccounts nss

/-- `SessionManager.approve` (Wallet side): proposal lookup and expiry check,
namespace validation, fresh keypair, session topic via ECDH with the
proposer's key, persists a SETTLED session, subscribes, forwards SETTLE on the
pairing topic (outcome `forwardOk`), deletes the consumed proposal. -/
def approve (crypto : CryptoOracle) (st : SMState) (now_ms : Nat)
    (params : ApproveSessionParams) (keyPair : KeyPair) (meta : SessionMetadata)
    (forwardOk : Bool) : SMRes SessionData :=
  match mapGet st.proposals params.proposalId with
  | none =>
    ⟨st, [], [], .error (.session ⟨SessionErrorCode.PROPOSAL_NOT_FOUND,
      "Proposal not found: " ++ toString params.proposalId⟩)⟩
  | some proposal =>
    if now_ms > proposal.expiryTimestamp then
      ⟨st, [], [], .error (.session ⟨SessionErrorCode.PROPOSAL_EXPIRED, "Proposal has expired"⟩)⟩
    else
      match validateNamespaces params.namespaces (some proposal.requiredNamespaces) with
      | .error e => ⟨st, [], [], .error (.session e)⟩
      | .ok _ =>
        let sessionTopic := crypto.generateSharedKey keyPair.privateKey proposal.proposer.publicKey
        let expiry := calcExpiry now_ms SESSION_EXPIRY
        let session : SessionData := {
          topic := sessionTopic
          pairingTopic := proposal.pairingTopic
          relay := proposal.relay
          expiry := expiry
          acknowledged := false
          controller := keyPair.publicKey
          namespaces := params.namespaces
          requiredNamespaces := proposal.requiredNamespaces
          optionalNamespaces := proposal.optionalNamespaces
          self := { publicKey := keyPair.publicKey, metadata := meta }
          peer := { publicKey := proposal.proposer.publicKey, metadata := proposal.proposer.metadata }
          status := SessionStatus.settled
          createdAt := now_ms
          updatedAt := now_ms
          proposalId := some params.proposalId }
        let st1 := { st with sessions := mapSet st.sessions sessionTopic session }
        if forwardOk then
          let st2 := { st1 with proposals := mapDel st1.proposals params.proposalId }
          ⟨st2, [{ topic := proposal.pairingTopic, method := "wc_sessionSettle" }], [], .ok session⟩
        else
          ⟨st1, [], [], .error (.thrown "Pairing forward failed")⟩

/-- `SessionManager.update`: requires an existing SETTLED session; replaces its
namespaces, persists, publishes UPDATE on the session topic, emits UPDATED. -/
def update (st : SMState) (params : SessionUpdate) (now_ms : Nat) (pubOk : Bool) :
    SMRes SessionData :=
  match mapGet st.sessions params.topic with
  | none =>
    ⟨st, [], [], .error (.session ⟨SessionErrorCode.SESSION_NOT_FOUND,
      "Session not found: " ++ params.topic⟩)⟩
  | some session =>
    if session.status ≠ SessionStatus.settled then
      ⟨st, [], [], .error (.session ⟨SessionErrorCode.SESSION_SETTLED, "Session is not settled"⟩)⟩
    else
      let updated := { session with namespaces := params.namespaces, updatedAt := now_ms }
      let st1 := { st with sessions := mapSet st.sessions params.topic updated }
      if pubOk then
        ⟨st1, [{ topic := params.topic, method := "wc_sessionUpdate" }], ["session_updated"],
          .ok updated⟩
      else
        ⟨st1, [], [], .error (.thrown "Relay publish failed")⟩

/-- `SessionManager.extend`: requires only that the session exists (the source
performs no status check); replaces its expiry, persists, publishes EXTEND on
the session topic, emits EXTENDED. -/
def extend (st : SMState) (params : SessionExtend) (now_ms : Nat) (pubOk : Bool) :
    SMRes SessionData :=
  match mapGet st.sessions params.topic with
  | none =>
    ⟨st, [], [], .error (.session ⟨SessionErrorCode.SESSION_NOT_FOUND,
      "Session not found: " ++ params.topic⟩)⟩
  | some session =>
    let updated := { session with expiry := params.expiry, updatedAt := now_ms }
    let st1 := { st with sessions := mapSet st.sessions params.topic updated }
    if pubOk then
      ⟨st1, [{ topic := params.topic, method := "wc_sessionExtend" }], ["session_extended"],
        .ok updated⟩
    else
      ⟨st1, [], [], .error (.thrown "Relay publish failed")⟩

/-- `SessionManager.disconnect`: no-op when absent; best-effort DELETE publish
(failure logged only), unsubscribe, mark DISCONNECTED, then delete. -/
def disconnect (st : SMState) (topic : String) (now_ms : Nat) (pubOk : Bool) : SMRes Unit :=
  match mapGet st.sessions topic with
  | none => ⟨st, [], [], .ok ()⟩
  | some session =>
    let published :=
      if pubOk then [({ topic := topic, method := "wc_sessionDelete" } : WireMsg)] else []
    let marked := { session with status := SessionStatus.disconnected, updatedAt := now_ms }
    let st1 := { st with sessions := mapDel (mapSet st.sessions topic marked) topic }
    ⟨st1, published, ["session_deleted"], .ok ()⟩

/-- `SessionManager.request`: requires a SETTLED session and a method granted by
some namespace; registers a waiter with deadline `now + REQUEST_TIMEOUT`,
publishes REQUEST; a publish failure removes the waiter again and propagates. -/
def request (st : SMState) (topic method : String) (now_ms id : Nat) (pubOk : Bool) :
    SMRes Unit :=
  match mapGet st.sessions topic with
  | none =>
    ⟨st, [], [], .error (.session ⟨SessionErrorCode.SESSION_NOT_FOUND,
      "Session not found: " ++ topic⟩)⟩
  | some session =>
    if session.status ≠ SessionStatus.settled then
      ⟨st, [], [], .error (.session ⟨SessionErrorCode.SESSION_SETTLED, "Session is not settled"⟩)⟩
    else if !(session.namespaces.any (fun kv => kv.2.methods.contains method)) then
      ⟨st, [], [], .error (.session ⟨SessionErrorCode.INVALID_METHOD,
        "Method not supported: " ++ method⟩)⟩
    else
      let registered := mapSet st.pendingRequests id (now_ms + REQUEST_TIMEOUT)
      if pubOk then
        ⟨{ st with pendingRequests := registered },
          [{ topic := topic, method := "wc_sessionRequest" }], [], .ok ()⟩
      else
        ⟨{ st with pendingRequests := mapDel registered id }, [], [],
          .error (.thrown "Relay publish failed")⟩

/-- Outcome of the RESPONSE handler for the pending waiter. -/
inductive ResponseOutcome
  | noWaiter
  | resolved
  | rejectedWith (message : String)
deriving DecidableEq, Repr

/-- `SessionManager.handleSessionResponse`: a matching id clears the timer and
the waiter, then resolves (or rejects, when the payload carries an error). -/
def handleSessionResponse (st : SMState) (id : Nat) (error : Option Reason) :
    SMState × ResponseOutcome :=
  match mapGet st.pendingRequests id with
  | none => (st, .noWaiter)
  | some _ =>
    ({ st with pendingRequests := mapDel st.pendingRequests id },
     match error with
     | some r => .rejectedWith r.message
     | none => .resolved)

/-- The session sweep of `cleanupExpired`: iterate the `getAll()` snapshot and
disconnect every session with `now >= expiry * 1000`. -/
def cleanupSessions (now_ms : Nat) (pubOk : Bool) :
    List SessionData → SMState → SMState
  | [], st => st
  | s :: rest, st =>
    if now_ms ≥ s.expiry * 1000 then
      cleanupSessions now_ms pubOk rest (disconnect st s.topic now_ms pubOk).state
    else
      cleanupSessions now_ms pubOk rest st

/-- The proposal sweep of `cleanupExpired`: delete every proposal with
`now >= expiryTimestamp`. -/
def cleanupProposals (now_ms : Nat) :
    List SessionProposal → List (Nat × SessionProposal) → List (Nat × SessionProposal)
  | [], m => m
  | p :: rest, m =>
    if now_ms ≥ p.expiryTimestamp then
      cleanupProposals now_ms rest (mapDel m p.proposalId)
    else
      cleanupProposals now_ms rest m

/-- `SessionManager.cleanupExpired`: sweep sessions, then proposals. -/
def cleanupExpired (st : SMState) (now_ms : Nat) (pubOk : Bool) : SMState :=
  let st1 := cleanupSessions now_ms pubOk (mapValues st.sessions) st
  { st1 with proposals := cleanupProposals now_ms (mapValues st1.proposals) st1.proposals }

end SessionManager

/-! ### Specification-side predicates

Transcriptions of the claims' wording, used only in theorem statements and
compared there against the source-derived functions above. -/

/-- Claim C1's invariant, one direction: a PENDING pairing has an empty peer key. -/
def pendImpliesEmptyPeer (p : Pairing) : Prop :=
  p.status = PairingStatus.pending → p.peer.publicKey = ""

instance (p : Pairing) : Decidable (pendImpliesEmptyPeer p) := by
  unfold pendImpliesEmptyPeer; infer_instance

/-- Claim C1's invariant, as a biconditional, for a single record. -/
def pendIffEmptyPeer (p : Pairing) : Prop :=
  p.status = PairingStatus.pending ↔ p.peer.publicKey = ""

instance (p : Pairing) : Decidable (pendIffEmptyPeer p) := by
  unfold pendIffEmptyPeer; infer_instance

/-- Every record of a pairing-store cache satisfies `pendImpliesEmptyPeer`. -/
def storeInv (store : List (String × Pairing)) : Prop :=
  ∀ kv ∈ store, pendImpliesEmptyPeer kv.2

instance (store : List (String × Pairing)) : Decidable (storeInv store) := by
  unfold storeInv; infer_instance

/-- Claim C2: the granted namespace at `key` covers every required chain,
method and event of `r`. -/
def nsCoveredB (nss : SessionNamespaces) (key : String) (r : SessionNamespace) : Bool :=
  match SessionManager.nsGet nss key with
  | none => false
  | some ns =>
    r.chains.all (fun c => ns.chains.contains c)
      && r.methods.all (fun m => ns.methods.contains m)
      && r.events.all (fun e => ns.events.contains e)

/-- Claim C2: `granted` is a per-key superset of `required`'s chains/methods/events. -/
def nsCoversB (granted required : SessionNamespaces) : Bool :=
  required.all (fun kr => nsCoveredB granted kr.1 kr.2)

/-- Claim C2: every account string in every granted namespace is well-formed. -/
def accountsOkB (nss : SessionNamespaces) : Bool :=
  nss.all (fun kv => (kv.2.accounts.getD []).all SessionManager.isValidAccount)

/-! ### Concrete fixtures for witnesses and counterexamples -/

def sampleRelay : RelayProtocol := { protocol := "irn" }

def sampleAppMeta : AppMetadata :=
  { name := "app", description := "d", url := "https://a", icons := [] }

def sampleSessionMeta : SessionMetadata :=
  { name := "app", description := "d", url := "https://a", icons := [] }

def sampleCrypto : CryptoOracle :=
  { hash := fun s => "hash-" ++ s
    generateSharedKey := fun a b => "ecdh-" ++ a ++ "-" ++ b }

def pmEmpty : PMState := { store := [], symKeys := [], subs := [], pendingApprovals := [] }

def samplePairingActive : Pairing :=
  { topic := "t", relay := sampleRelay
    self := { publicKey := "selfpk" }, peer := { publicKey := "peerpk" }
    status := PairingStatus.active, expiry := 100
    createdAt := 0, updatedAt := 0, initiator := true }

def samplePairingPending : Pairing :=
  { samplePairingActive with status := PairingStatus.pending, peer := { publicKey := "" } }

def pmWithActive : PMState :=
  { store := [("t", samplePairingActive)], symKeys := [("t", "sym")]
    subs := ["t"], pendingApprovals := [] }

def pmWithPending : PMState :=
  { store := [("t", samplePairingPending)], symKeys := [("t", "sym")]
    subs := ["t"], pendingApprovals := ["t"] }

def sampleNs : SessionNamespace :=
  { chains := ["eip155:1"], methods := ["eth_sign"], events := [] }

def sampleGrantedNs : SessionNamespace :=
  { chains := ["eip155:1"], methods := ["eth_sign"], events := []
    accounts := some ["eip155:1:0xabc"] }

def sampleSessionSettled : SessionData :=
  { topic := "s", pairingTopic := "t", relay := sampleRelay
    expiry := 100, acknowledged := true, controller := "cpk"
    namespaces := [("eip155", sampleGrantedNs)]
    requiredNamespaces := [("eip155", sampleNs)]
    self := { publicKey := "spk", metadata := sampleSessionMeta }
    peer := { publicKey := "ppk", metadata := sampleSessionMeta }
    status := SessionStatus.settled, createdAt := 0, updatedAt := 0 }

def sampleSessionDisconnected : SessionData :=
  { sampleSessionSettled with status := SessionStatus.disconnected }

def smWithSettled : SMState :=
  { sessions := [("s", sampleSessionSettled)], proposals := [], pendingRequests := [] }

def smWithDisconnected : SMState :=
  { sessions := [("s", sampleSessionDisconnected)], proposals := [], pendingRequests := [] }

def sampleProposal : SessionProposal :=
  { proposalId := 7, pairingTopic := "t"
    proposer := { publicKey := "ppk", metadata := sampleSessionMeta }
    requiredNamespaces := [("eip155", sampleNs)]
    relay := sampleRelay, expiryTimestamp := 1000 }

def smWithProposal : SMState :=
  { sessions := [], proposals := [(7, sampleProposal)], pendingRequests := [] }

/-! ## Helper lemmas: association-list maps -/

theorem mapGet_eq_none_iff {κ α : Type} [DecidableEq κ] (m : List (κ × α)) (k : κ) :
    mapGet m k = none ↔ ∀ kv ∈ m, kv.1 ≠ k := by
  simp [mapGet, List.find?_eq_none]

theorem mapGet_mem {κ α : Type} [DecidableEq κ] {m : List (κ × α)} {k : κ} {v : α}
    (h : mapGet m k = some v) : (k, v) ∈ m := by
  unfold mapGet at h
  cases hf : m.find? (fun kv => decide (kv.1 = k)) with
  | none => rw [hf] at h; simp at h
  | some kv =>
    rw [hf] at h
    simp only [Option.map_some'] at h
    have hmem := List.mem_of_find?_eq_some hf
    have hp := List.find?_some hf
    simp only [decide_eq_true_eq] at hp
    obtain ⟨a, b⟩ := kv
    cases hp
    cases h
    exact hmem

theorem mapGet_mapSet_self {κ α : Type} [DecidableEq κ] (m : List (κ × α)) (k : κ) (v : α) :
    mapGet (mapSet m k v) k = some v := by
  unfold mapGet mapSet
  rw [List.find?_append]
  have hnone : (m.filter (fun kv => decide (kv.1 ≠ k))).find? (fun kv => decide (kv.1 = k)) = none := by
    rw [List.find?_eq_none]
    intro kv hkv
    have := List.of_mem_filter hkv
    simp_all
  rw [hnone]
  simp [List.find?]

theorem mapGet_mapDel_self {κ α : Type} [DecidableEq κ] (m : List (κ × α)) (k : κ) :
    mapGet (mapDel m k) k = none := by
  unfold mapGet mapDel
  rw [Option.map_eq_none', List.find?_eq_none]
  intro kv hkv
  have := List.of_mem_filter hkv
  simp_all

theorem mem_mapSet {κ α : Type} [DecidableEq κ] {m : List (κ × α)} {k : κ} {v : α} {kv : κ × α}
    (h : kv ∈ mapSet m k v) : kv ∈ m ∨ kv = (k, v) := by
  unfold mapSet at h
  rcases List.mem_append.mp h with h1 | h1
  · exact Or.inl (List.mem_of_mem_filter h1)
  · simp at h1; exact Or.inr h1

theorem mem_mapDel {κ α : Type} [DecidableEq κ] {m : List (κ × α)} {k : κ} {kv : κ × α}
    (h : kv ∈ mapDel m k) : kv ∈ m :=
  List.mem_of_mem_filter h

theorem mapDel_mapSet {κ α : Type} [DecidableEq κ] (m : List (κ × α)) (k : κ) (v : α) :
    mapDel (mapSet m k v) k = mapDel m k := by
  unfold mapDel mapSet
  rw [List.filter_append, List.filter_filter]
  simp [List.filter]

theorem key_not_mem_mapDel {κ α : Type} [DecidableEq κ] {m : List (κ × α)} {k : κ} {kv : κ × α}
    (h : kv ∈ mapDel m k) : kv.1 ≠ k := by
  have := List.of_mem_filter h
  simp_all

/-! ## Claim C9 -/

/-- C9: `SessionManager.isValidAccount` returns true exactly for strings that
split on `:` into three parts, each non-empty; in particular it accepts
"eip155:1:0xabc" and rejects "eip155:1", "::" and "eip155::0xabc". -/
theorem c9_isValidAccount_characterization :
    (∀ s : String, SessionManager.isValidAccount s = true ↔
      ((splitOnChar ':' s.data).length = 3 ∧ ∀ p ∈ splitOnChar ':' s.data, p ≠ ([] : List Char)))
    ∧ SessionManager.isValidAccount "eip155:1:0xabc" = true
    ∧ SessionManager.isValidAccount "eip155:1" = false
    ∧ SessionManager.isValidAccount "::" = false
    ∧ SessionManager.isValidAccount "eip155::0xabc" = false := by
  refine ⟨fun s => ?_, by decide, by decide, by decide, by decide⟩
  unfold SessionManager.isValidAccount
  by_cases hs : s = ""
  · subst hs
    simp [splitOnChar, String.data]
  · rw [if_neg hs]
    generalize splitOnChar ':' s.data = parts
    rcases parts with _ | ⟨a, _ | ⟨b, _ | ⟨c, _ | ⟨d, rest⟩⟩⟩⟩ <;>
      simp [List.isEmpty_iff, and_assoc]

/-- C9 witness: the characterization applied at the concrete accepted and
rejected inputs. -/
theorem c9_isValidAccount_witness :
    SessionManager.isValidAccount "eip155:1:0xabc" = true
    ∧ SessionManager.isValidAccount "::" = false :=
  ⟨c9_isValidAccount_characterization.2.1, c9_isValidAccount_characterization.2.2.2.1⟩

/-! ## Claim C10 -/

/-- C10: handling an inbound APPROVE on a PENDING pairing stores a record whose
expiry is exactly the expiry carried by the APPROVE message — the peer-supplied
value replaces the locally computed one — while peer and status are updated,
updatedAt is restamped, and topic, relay, self, createdAt and initiator are
unchanged. -/
theorem c10_approve_adopts_message_expiry (st : PMState) (now_ms : Nat) (topic : String)
    (params : PairingApproveParams) (p : Pairing)
    (hget : mapGet st.store topic = some p)
    (hlive : PairingStore.isExpired (now_ms / 1000) p = false)
    (hpend : p.status = PairingStatus.pending)
    (htopic : p.topic = topic) (hne : topic ≠ "") :
    ∃ p', (PairingManager.approve st now_ms topic params).result = .ok (some p')
      ∧ mapGet (PairingManager.approve st now_ms topic params).state.store topic = some p'
      ∧ p'.expiry = params.expiry
      ∧ p'.peer = params.responder
      ∧ p'.status = PairingStatus.active
      ∧ p'.updatedAt = now_ms
      ∧ p'.topic = p.topic ∧ p'.relay = p.relay ∧ p'.self = p.self
      ∧ p'.createdAt = p.createdAt ∧ p'.initiator = p.initiator := by
  have hgot : PairingStore.get st.store (now_ms / 1000) topic = (some p, st.store) := by
    unfold PairingStore.get
    rw [hget]
    simp [hlive]
  have hset : PairingStore.set st.store now_ms topic
      ({ p with
          peer := params.responder
          status := PairingStatus.active
          expiry := params.expiry
          updatedAt := now_ms }) =
      .ok (mapSet st.store topic { p with
          peer := params.responder
          status := PairingStatus.active
          expiry := params.expiry
          updatedAt := now_ms }) := by
    unfold PairingStore.set
    rw [if_neg hne, if_neg (by simp [← htopic])]
  refine ⟨{ p with
      peer := params.responder
      status := PairingStatus.active
      expiry := params.expiry
      updatedAt := now_ms }, ?_, ?_, rfl, rfl, rfl, rfl, rfl,
      rfl, rfl, rfl, rfl⟩ <;>
  · simp only [PairingManager.approve, hgot]
    simp only [hpend]
    simp [hset, mapGet_mapSet_self]

/-- C10 witness: a concrete PENDING pairing approved with a peer-chosen expiry
of 424242 ends up stored with exactly that expiry. -/
theorem c10_approve_adopts_message_expiry_witness :
    ∃ p', (PairingManager.approve pmWithPending 5000 "t"
        { relay := sampleRelay, responder := { publicKey := "respk" }, expiry := 424242 }).result
        = .ok (some p')
      ∧ mapGet (PairingManager.approve pmWithPending 5000 "t"
          { relay := sampleRelay, responder := { publicKey := "respk" }, expiry := 424242 }).state.store
          "t" = some p'
      ∧ p'.expiry = 424242
      ∧ p'.peer = { publicKey := "respk" }
      ∧ p'.status = PairingStatus.active
      ∧ p'.updatedAt = 5000
      ∧ p'.topic = samplePairingPending.topic ∧ p'.relay = samplePairingPending.relay
      ∧ p'.self = samplePairingPending.self
      ∧ p'.createdAt = samplePairingPending.createdAt
      ∧ p'.initiator = samplePairingPending.initiator :=
  c10_approve_adopts_message_expiry pmWithPending 5000 "t"
    { relay := sampleRelay, responder := { publicKey := "respk" }, expiry := 424242 }
    samplePairingPending (by decide) (by decide) (by decide) (by decide) (by decide)

/-! ## Claim C1 -/

theorem storeInv_mapSet {m : List (String × Pairing)} {k : String} {v : Pairing}
    (h : storeInv m) (hv : pendImpliesEmptyPeer v) : storeInv (mapSet m k v) := by
  intro kv hkv
  rcases mem_mapSet hkv with h1 | h1
  · exact h kv h1
  · rw [h1]; exact hv

theorem storeInv_mapDel {m : List (String × Pairing)} {k : String}
    (h : storeInv m) : storeInv (mapDel m k) :=
  fun kv hkv => h kv (mem_mapDel hkv)

theorem storeInv_get_snd {m : List (String × Pairing)} {now_s : Nat} {t : String}
    (h : storeInv m) : storeInv (PairingStore.get m now_s t).2 := by
  unfold PairingStore.get
  cases hm : mapGet m t
  · simpa using h
  · dsimp only
    split
    · exact storeInv_mapDel h
    · simpa using h

theorem storeInv_set {m m' : List (String × Pairing)} {now_ms : Nat} {t : String} {v : Pairing}
    (h : storeInv m) (hv : pendImpliesEmptyPeer v)
    (hok : PairingStore.set m now_ms t v = .ok m') : storeInv m' := by
  unfold PairingStore.set at hok
  by_cases h1 : t = ""
  · rw [if_pos h1] at hok; exact (Except.noConfusion hok)
  rw [if_neg h1] at hok
  by_cases h2 : t ≠ v.topic
  · rw [if_pos h2] at hok; exact (Except.noConfusion hok)
  · rw [if_neg h2] at hok
    injection hok with hh
    rw [← hh]
    exact storeInv_mapSet h hv

theorem PairingStore.get_fst_some {m : List (String × Pairing)} {now_s : Nat} {t : String}
    {p : Pairing} (h : (PairingStore.get m now_s t).1 = some p) : mapGet m t = some p := by
  unfold PairingStore.get at h
  cases hm : mapGet m t <;> rw [hm] at h
  · simp at h
  · dsimp only at h
    split at h
    · simp at h
    · simpa using h

/-- C1 counterexample: `PairingManager.activate` persists and returns a record
with status ACTIVE and an empty peer key, so `status==PENDING ⇔
peer.publicKey==""` fails for records produced by PairingManager operations
(the returned record has an empty peer key yet its status is not PENDING). -/
theorem c1_invariant_counterexample :
    ((PairingManager.activate pmEmpty 1000 "wc:topicA@2?relay-protocol=irn&symKey=k1"
        sampleAppMeta "respk" true true).result.map
      (fun p => (p.status, p.peer.publicKey)))
    = Except.ok (PairingStatus.active, "")
    ∧ ¬ (PairingStatus.active = PairingStatus.pending ↔ ("" : String) = "") := by
  constructor
  · rfl
  · decide

/-- C1 amended: every pairing record produced or mutated by create, activate,
inbound approve, or update satisfies the PENDING ⇒ empty-peer-key direction of
the invariant; the converse direction is refuted by activate, which persists an
ACTIVE record whose peer key is still empty. -/
theorem c1_pending_implies_empty_peer (st : PMState) (hinv : storeInv st.store) :
    (∀ crypto now_ms pk sk params dm subOk,
      storeInv (PairingManager.create crypto st now_ms pk sk params dm subOk).state.store)
    ∧ (∀ now_ms uri meta pk subOk pubOk,
      storeInv (PairingManager.activate st now_ms uri meta pk subOk pubOk).state.store)
    ∧ (∀ now_ms topic params,
      storeInv (PairingManager.approve st now_ms topic params).state.store)
    ∧ (∀ now_ms topic meta pubOk,
      storeInv (PairingManager.update st now_ms topic meta pubOk).state.store) := by
  refine ⟨?_, ?_, ?_, ?_⟩
  · intro crypto now_ms pk sk params dm subOk
    simp only [PairingManager.create]
    split
    · exact hinv
    · rename_i store1 hset
      have h1 : storeInv store1 := storeInv_set hinv (by intro h; rfl) hset
      split
      · split <;> exact h1
      · exact h1
  · intro now_ms uri meta pk subOk pubOk
    simp only [PairingManager.activate]
    split
    · exact hinv
    · rename_i parsed _
      have h0 : storeInv (PairingStore.get st.store (now_ms / 1000) parsed.topic).2 :=
        storeInv_get_snd hinv
      split
      · exact h0
      · split
        · split
          · exact storeInv_mapDel h0
          · rename_i store2 hset
            have h2 : storeInv store2 := storeInv_set h0 (by intro h; rfl) hset
            split
            · exact h2
            · exact storeInv_mapDel h2
        · exact storeInv_mapDel h0
  · intro now_ms topic params
    simp only [PairingManager.approve]
    have h0 : storeInv (PairingStore.get st.store (now_ms / 1000) topic).2 :=
      storeInv_get_snd hinv
    split
    · exact h0
    · split
      · exact h0
      · split
        · exact h0
        · rename_i store1 hset
          exact storeInv_set h0 (by intro h; exact PairingStatus.noConfusion h) hset
  · intro now_ms topic meta pubOk
    simp only [PairingManager.update]
    have h0 : storeInv (PairingStore.get st.store (now_ms / 1000) topic).2 :=
      storeInv_get_snd hinv
    split
    · exact h0
    · rename_i pairing hfst
      have hpair : pendImpliesEmptyPeer pairing :=
        hinv _ (mapGet_mem (PairingStore.get_fst_some hfst))
      split
      · exact h0
      · split
        · exact h0
        · rename_i store1 hset
          have h1 : storeInv store1 :=
            storeInv_set h0 (by intro h; exact hpair h) hset
          split <;> exact h1

/-- C1 witness: the amended invariant applied to a concrete PENDING store and a
concrete inbound approve. -/
theorem c1_pending_implies_empty_peer_witness :
    storeInv (PairingManager.approve pmWithPending 5000 "t"
      { relay := sampleRelay, responder := { publicKey := "respk" }, expiry := 1 }).state.store :=
  (c1_pending_implies_empty_peer pmWithPending (by decide)).2.2.1 5000 "t" _

/-! ## Claim C5 -/

theorem PairingStore.get_of_some_live {m : List (String × Pairing)} {now_s : Nat} {t : String}
    {p : Pairing} (hget : mapGet m t = some p)
    (hlive : PairingStore.isExpired now_s p = false) :
    PairingStore.get m now_s t = (some p, m) := by
  unfold PairingStore.get
  rw [hget]
  simp [hlive]

/-- C5 counterexample: with the relay publish failing, `PairingManager.reject`
on an existing pairing propagates the transport error and performs no local
cleanup — the record and the cached symmetric key both survive. -/
theorem c5_reject_counterexample :
    (PairingManager.reject pmWithActive 1000 "t" "nope" false).result
      = .error "Relay publish failed"
    ∧ mapGet (PairingManager.reject pmWithActive 1000 "t" "nope" false).state.store "t"
      = some samplePairingActive
    ∧ mapGet (PairingManager.reject pmWithActive 1000 "t" "nope" false).state.symKeys "t"
      = some "sym" :=
  ⟨rfl, rfl, rfl⟩

/-- C5 amended: for an existing (live) pairing, `delete` completes and performs
local cleanup even when its DELETE publish fails — the transport error is
swallowed; `reject`, by contrast, propagates a failure of its REJECT publish
and performs no cleanup in that case, and cleans up when the publish
succeeds. -/
theorem c5_transport_error_handling (st : PMState) (now_ms : Nat) (topic reason : String)
    (p : Pairing)
    (hget : mapGet st.store topic = some p)
    (hlive : PairingStore.isExpired (now_ms / 1000) p = false) :
    ((PairingManager.delete st now_ms topic reason false).result = .ok ()
      ∧ mapGet (PairingManager.delete st now_ms topic reason false).state.store topic = none
      ∧ mapGet (PairingManager.delete st now_ms topic reason false).state.symKeys topic = none
      ∧ topic ∉ (PairingManager.delete st now_ms topic reason false).state.subs)
    ∧ ((PairingManager.reject st now_ms topic reason false).result
        = .error "Relay publish failed"
      ∧ (PairingManager.reject st now_ms topic reason false).state = st)
    ∧ ((PairingManager.reject st now_ms topic reason true).result = .ok ()
      ∧ mapGet (PairingManager.reject st now_ms topic reason true).state.store topic = none
      ∧ mapGet (PairingManager.reject st now_ms topic reason true).state.symKeys topic = none) := by
  have hgot := PairingStore.get_of_some_live hget hlive
  refine ⟨⟨?_, ?_, ?_, ?_⟩, ⟨?_, ?_⟩, ⟨?_, ?_, ?_⟩⟩ <;>
    simp [PairingManager.delete, PairingManager.reject, PairingManager.cleanupPairing, hgot,
      mapGet_mapDel_self]

/-- C5 witness: the amended behaviour at a concrete active pairing. -/
theorem c5_transport_error_handling_witness :
    ((PairingManager.delete pmWithActive 1000 "t" "bye" false).result = .ok ()
      ∧ mapGet (PairingManager.delete pmWithActive 1000 "t" "bye" false).state.store "t" = none
      ∧ mapGet (PairingManager.delete pmWithActive 1000 "t" "bye" false).state.symKeys "t" = none
      ∧ "t" ∉ (PairingManager.delete pmWithActive 1000 "t" "bye" false).state.subs)
    ∧ ((PairingManager.reject pmWithActive 1000 "t" "bye" false).result
        = .error "Relay publish failed"
      ∧ (PairingManager.reject pmWithActive 1000 "t" "bye" false).state = pmWithActive)
    ∧ ((PairingManager.reject pmWithActive 1000 "t" "bye" true).result = .ok ()
      ∧ mapGet (PairingManager.reject pmWithActive 1000 "t" "bye" true).state.store "t" = none
      ∧ mapGet (PairingManager.reject pmWithActive 1000 "t" "bye" true).state.symKeys "t" = none) :=
  c5_transport_error_handling pmWithActive 1000 "t" "bye" samplePairingActive rfl rfl

/-! ## Claim C6 -/

theorem PairingStore.get_snd_of_some {m : List (String × Pairing)} {now_s : Nat} {t : String}
    {p : Pairing} (h : (PairingStore.get m now_s t).1 = some p) :
    (PairingStore.get m now_s t).2 = m := by
  have hget := PairingStore.get_fst_some h
  have hlive : PairingStore.isExpired now_s p = false := by
    by_contra hc
    rw [Bool.not_eq_false] at hc
    have hdead : PairingStore.get m now_s t = (none, mapDel m t) := by
      unfold PairingStore.get
      rw [hget]
      simp [hc]
    rw [hdead] at h
    simp at h
  rw [PairingStore.get_of_some_live hget hlive]

theorem jsFalsy_false {o : Option (List Char)} (h : jsFalsy o = false) :
    ∃ l, o = some l ∧ l ≠ [] := by
  match o with
  | none => simp [jsFalsy] at h
  | some [] => simp [jsFalsy] at h
  | some (c :: cs) => exact ⟨c :: cs, rfl, by simp⟩

theorem stringMk_ne_empty {l : List Char} (h : l ≠ []) : String.mk l ≠ "" := by
  intro habs
  exact h (congrArg String.data habs)

/-- A successfully decoded pairing URI has version 2 and non-empty topic,
symKey and relay protocol components. -/
theorem decode_ok_shape {uri : String} {parsed : PairingURI}
    (h : PairingURIUtil.decode uri = .ok parsed) :
    parsed.version = 2 ∧ parsed.topic ≠ "" ∧ parsed.symKey ≠ ""
      ∧ parsed.relay.protocol ≠ "" := by
  unfold PairingURIUtil.decode at h
  split at h
  · unfold PairingURIUtil.decodeBody at h
    dsimp only at h
    split at h
    · exact (Except.noConfusion h)
    · rename_i hcond1
      split at h
      · exact (Except.noConfusion h)
      · rename_i hcond2
        split at h
        · exact (Except.noConfusion h)
        · rename_i v hv
          split at h
          · exact (Except.noConfusion h)
          · rename_i hvne
            split at h
            · exact (Except.noConfusion h)
            · rename_i hcond3
              injection h with h
              subst h
              rw [Bool.not_eq_true, Bool.or_eq_false_iff] at hcond2 hcond3
              obtain ⟨l1, hl1, hne1⟩ := jsFalsy_false hcond2.1
              obtain ⟨l3, hl3, hne3⟩ := jsFalsy_false hcond3.1
              obtain ⟨l4, hl4, hne4⟩ := jsFalsy_false hcond3.2
              refine ⟨?_, ?_, ?_, ?_⟩
              · simpa [PairingURIUtil.VERSION] using not_not.mp hvne
              · simp only [hl1, Option.getD_some]
                exact stringMk_ne_empty hne1
              · simp only [hl4, Option.getD_some]
                exact stringMk_ne_empty hne4
              · simp only [hl3, Option.getD_some]
                exact stringMk_ne_empty hne3
  · exact (Except.noConfusion h)

/-- C6: `activate` throws when a live record for the decoded topic already
exists, leaving the store unchanged; and when the APPROVE publish fails after
the ACTIVE record was persisted, the partial record is deleted again before the
error propagates, so no record for that topic survives a failed activate. -/
theorem c6_activate_no_partial_record (st : PMState) (now_ms : Nat) (uri : String)
    (meta : AppMetadata) (pk : String) (parsed : PairingURI)
    (hdec : PairingURIUtil.decode uri = .ok parsed) :
    (∀ p, (PairingStore.get st.store (now_ms / 1000) parsed.topic).1 = some p →
      ∀ subOk pubOk,
        (PairingManager.activate st now_ms uri meta pk subOk pubOk).result
          = .error "Pairing already exists"
        ∧ (PairingManager.activate st now_ms uri meta pk subOk pubOk).state.store = st.store)
    ∧ ((PairingStore.get st.store (now_ms / 1000) parsed.topic).1 = none →
        (PairingManager.activate st now_ms uri meta pk true false).result
          = .error "Relay publish failed"
        ∧ mapGet (PairingManager.activate st now_ms uri meta pk true false).state.store
            parsed.topic = none) := by
  constructor
  · intro p hp subOk pubOk
    have hsnd := PairingStore.get_snd_of_some hp
    constructor <;> simp [PairingManager.activate, hdec, hp, hsnd]
  · intro hnone
    have htne : parsed.topic ≠ "" := (decode_ok_shape hdec).2.1
    have hset : PairingStore.set (PairingStore.get st.store (now_ms / 1000) parsed.topic).2
        now_ms parsed.topic
        ({ topic := parsed.topic
           relay := parsed.relay
           self := { publicKey := pk, appMetadata := some meta }
           peer := { publicKey := "", appMetadata := none }
           status := PairingStatus.active
           expiry := now_ms / 1000 + PairingManager.DEFAULT_EXPIRY
           createdAt := now_ms
           updatedAt := now_ms
           initiator := false }) =
        .ok (mapSet (PairingStore.get st.store (now_ms / 1000) parsed.topic).2 parsed.topic
          { topic := parsed.topic
            relay := parsed.relay
            self := { publicKey := pk, appMetadata := some meta }
            peer := { publicKey := "", appMetadata := none }
            status := PairingStatus.active
            expiry := now_ms / 1000 + PairingManager.DEFAULT_EXPIRY
            createdAt := now_ms
            updatedAt := now_ms
            initiator := false }) := by
      unfold PairingStore.set
      rw [if_neg htne, if_neg (by simp)]
    constructor <;>
      simp [PairingManager.activate, hdec, hnone, hset, mapDel_mapSet, mapGet_mapDel_self]

/-- C6 witness: both conjuncts at concrete inputs — an existing record makes
activate fail without touching the store, and a failed APPROVE publish leaves
no record behind. -/
theorem c6_activate_no_partial_record_witness :
    ((PairingManager.activate pmWithActive 1000 "wc:t@2?relay-protocol=irn&symKey=k1"
        sampleAppMeta "respk" true true).result = .error "Pairing already exists"
      ∧ (PairingManager.activate pmWithActive 1000 "wc:t@2?relay-protocol=irn&symKey=k1"
          sampleAppMeta "respk" true true).state.store = pmWithActive.store)
    ∧ ((PairingManager.activate pmEmpty 1000 "wc:t@2?relay-protocol=irn&symKey=k1"
        sampleAppMeta "respk" true false).result = .error "Relay publish failed"
      ∧ mapGet (PairingManager.activate pmEmpty 1000 "wc:t@2?relay-protocol=irn&symKey=k1"
          sampleAppMeta "respk" true false).state.store "t" = none) :=
  ⟨(c6_activate_no_partial_record pmWithActive 1000 "wc:t@2?relay-protocol=irn&symKey=k1"
      sampleAppMeta "respk" ⟨"t", 2, "k1", { protocol := "irn" }⟩ rfl).1
      samplePairingActive rfl true true,
   (c6_activate_no_partial_record pmEmpty 1000 "wc:t@2?relay-protocol=irn&symKey=k1"
      sampleAppMeta "respk" ⟨"t", 2, "k1", { protocol := "irn" }⟩ rfl).2 rfl⟩

/-! ## Claim C4 -/

/-- C4 counterexample: `SessionManager.extend` performs no status check — on a
session whose status is DISCONNECTED (not SETTLED) it succeeds and replaces the
expiry, where the claim requires an InvalidState failure. -/
theorem c4_extend_counterexample :
    ((SessionManager.extend smWithDisconnected { topic := "s", expiry := 424242 } 5 true
      ).result.map (fun s => (s.status, s.expiry)))
    = Except.ok (SessionStatus.disconnected, 424242) := by
  rfl

/-- C4 amended: `update` fails with SESSION_NOT_FOUND when the session is
absent and SESSION_SETTLED ("Session is not settled") when it is not SETTLED,
and on a SETTLED session replaces the namespaces, persists, publishes UPDATE on
the session topic and emits a local event; `extend` fails only when the session
is absent — it performs no status check — and otherwise replaces the expiry,
persists, publishes EXTEND on the session topic and emits a local event. -/
theorem c4_update_extend (st : SMState) (now_ms : Nat) :
    (∀ params : SessionUpdate, mapGet st.sessions params.topic = none →
      ∀ pubOk, (SessionManager.update st params now_ms pubOk).result
        = .error (.session ⟨SessionErrorCode.SESSION_NOT_FOUND,
            "Session not found: " ++ params.topic⟩))
    ∧ (∀ params : SessionUpdate, ∀ s, mapGet st.sessions params.topic = some s →
        s.status ≠ SessionStatus.settled →
      ∀ pubOk, (SessionManager.update st params now_ms pubOk).result
        = .error (.session ⟨SessionErrorCode.SESSION_SETTLED, "Session is not settled"⟩))
    ∧ (∀ params : SessionUpdate, ∀ s, mapGet st.sessions params.topic = some s →
        s.status = SessionStatus.settled →
        (SessionManager.update st params now_ms true).result
          = .ok { s with namespaces := params.namespaces, updatedAt := now_ms }
        ∧ mapGet (SessionManager.update st params now_ms true).state.sessions params.topic
          = some { s with namespaces := params.namespaces, updatedAt := now_ms }
        ∧ (SessionManager.update st params now_ms true).published
          = [{ topic := params.topic, method := "wc_sessionUpdate" }]
        ∧ (SessionManager.update st params now_ms true).events = ["session_updated"])
    ∧ (∀ params : SessionExtend, mapGet st.sessions params.topic = none →
      ∀ pubOk, (SessionManager.extend st params now_ms pubOk).result
        = .error (.session ⟨SessionErrorCode.SESSION_NOT_FOUND,
            "Session not found: " ++ params.topic⟩))
    ∧ (∀ params : SessionExtend, ∀ s, mapGet st.sessions params.topic = some s →
        (SessionManager.extend st params now_ms true).result
          = .ok { s with expiry := params.expiry, updatedAt := now_ms }
        ∧ mapGet (SessionManager.extend st params now_ms true).state.sessions params.topic
          = some { s with expiry := params.expiry, updatedAt := now_ms }
        ∧ (SessionManager.extend st params now_ms true).published
          = [{ topic := params.topic, method := "wc_sessionExtend" }]
        ∧ (SessionManager.extend st params now_ms true).events = ["session_extended"]) := by
  refine ⟨?_, ?_, ?_, ?_, ?_⟩
  · intro params hget pubOk
    simp [SessionManager.update, hget]
  · intro params s hget hst pubOk
    simp [SessionManager.update, hget, hst]
  · intro params s hget hst
    refine ⟨?_, ?_, ?_, ?_⟩ <;> simp [SessionManager.update, hget, hst, mapGet_mapSet_self]
  · intro params hget pubOk
    simp [SessionManager.extend, hget]
  · intro params s hget
    refine ⟨?_, ?_, ?_, ?_⟩ <;> simp [SessionManager.extend, hget, mapGet_mapSet_self]

/-- C4 witness: the amended behaviour at concrete sessions — a SETTLED session
is updated, a DISCONNECTED one makes update fail. -/
theorem c4_update_extend_witness :
    ((SessionManager.update smWithSettled
        { topic := "s", namespaces := [("eip155", sampleGrantedNs)] } 99 true).result
      = .ok { sampleSessionSettled with
          namespaces := [("eip155", sampleGrantedNs)], updatedAt := 99 })
    ∧ ((SessionManager.update smWithDisconnected
        { topic := "s", namespaces := [] } 99 true).result
      = .error (.session ⟨SessionErrorCode.SESSION_SETTLED, "Session is not settled"⟩)) :=
  ⟨((c4_update_extend smWithSettled 99).2.2.1
      { topic := "s", namespaces := [("eip155", sampleGrantedNs)] }
      sampleSessionSettled rfl rfl).1,
   (c4_update_extend smWithDisconnected 99).2.1 { topic := "s", namespaces := [] }
      sampleSessionDisconnected rfl (by decide) true⟩

/-! ## Claim C8 -/

/-- C8: `request` fails with SESSION_NOT_FOUND when the session is absent,
SESSION_SETTLED when it is not SETTLED and INVALID_METHOD when the method is
granted by no namespace; on success it registers a waiter whose deadline is
now + 5 minutes and publishes REQUEST on the session topic; a publish failure
removes the waiter again and propagates the error; and an inbound RESPONSE with
a matching id removes the waiter and resolves it. -/
theorem c8_request_response (st : SMState) (topic method : String) (now_ms id : Nat) :
    (mapGet st.sessions topic = none →
      ∀ pubOk, (SessionManager.request st topic method now_ms id pubOk).result
        = .error (.session ⟨SessionErrorCode.SESSION_NOT_FOUND,
            "Session not found: " ++ topic⟩))
    ∧ (∀ s, mapGet st.sessions topic = some s → s.status ≠ SessionStatus.settled →
      ∀ pubOk, (SessionManager.request st topic method now_ms id pubOk).result
        = .error (.session ⟨SessionErrorCode.SESSION_SETTLED, "Session is not settled"⟩))
    ∧ (∀ s, mapGet st.sessions topic = some s → s.status = SessionStatus.settled →
        (s.namespaces.any (fun kv => kv.2.methods.contains method)) = false →
      ∀ pubOk, (SessionManager.request st topic method now_ms id pubOk).result
        = .error (.session ⟨SessionErrorCode.INVALID_METHOD,
            "Method not supported: " ++ method⟩))
    ∧ (∀ s, mapGet st.sessions topic = some s → s.status = SessionStatus.settled →
        (s.namespaces.any (fun kv => kv.2.methods.contains method)) = true →
        ((SessionManager.request st topic method now_ms id true).result = .ok ()
        ∧ (SessionManager.request st topic method now_ms id true).state.pendingRequests
            = mapSet st.pendingRequests id (now_ms + SessionManager.REQUEST_TIMEOUT)
        ∧ (SessionManager.request st topic method now_ms id true).published
            = [{ topic := topic, method := "wc_sessionRequest" }]))
    ∧ (∀ s, mapGet st.sessions topic = some s → s.status = SessionStatus.settled →
        (s.namespaces.any (fun kv => kv.2.methods.contains method)) = true →
        ((SessionManager.request st topic method now_ms id false).result
            = .error (.thrown "Relay publish failed")
        ∧ mapGet (SessionManager.request st topic method now_ms id false
            ).state.pendingRequests id = none))
    ∧ (∀ d, mapGet st.pendingRequests id = some d →
        SessionManager.handleSessionResponse st id none
          = ({ st with pendingRequests := mapDel st.pendingRequests id },
             SessionManager.ResponseOutcome.resolved)) := by
  refine ⟨?_, ?_, ?_, ?_, ?_, ?_⟩
  · intro hget pubOk
    simp [SessionManager.request, hget]
  · intro s hget hst pubOk
    simp [SessionManager.request, hget, hst]
  · intro s hget hst hany pubOk
    simp only [SessionManager.request, hget, hst, hany]
    simp
  · intro s hget hst hany
    refine ⟨?_, ?_, ?_⟩ <;>
      · simp only [SessionManager.request, hget, hst, hany]
        simp
  · intro s hget hst hany
    refine ⟨?_, ?_⟩ <;>
      · simp only [SessionManager.request, hget, hst, hany]
        simp [mapGet_mapDel_self]
  · intro d hd
    simp [SessionManager.handleSessionResponse, hd]

/-- C8 witness: the request/response behaviour at a concrete SETTLED session —
a granted method succeeds, registering a waiter due in 5 minutes, and a
matching RESPONSE clears a registered waiter. -/
theorem c8_request_response_witness :
    ((SessionManager.request smWithSettled "s" "eth_sign" 1000 77 true).result = .ok ()
      ∧ (SessionManager.request smWithSettled "s" "eth_sign" 1000 77 true
          ).state.pendingRequests
        = mapSet smWithSettled.pendingRequests 77 (1000 + SessionManager.REQUEST_TIMEOUT)
      ∧ (SessionManager.request smWithSettled "s" "eth_sign" 1000 77 true).published
        = [{ topic := "s", method := "wc_sessionRequest" }])
    ∧ SessionManager.handleSessionResponse
        { sessions := [], proposals := [], pendingRequests := [(77, 301000)] } 77 none
      = ({ sessions := [], proposals := [],
           pendingRequests := mapDel [(77, 301000)] 77 },
         SessionManager.ResponseOutcome.resolved) :=
  ⟨(c8_request_response smWithSettled "s" "eth_sign" 1000 77).2.2.2.1
      sampleSessionSettled rfl rfl rfl,
   (c8_request_response { sessions := [], proposals := [], pendingRequests := [(77, 301000)] }
      "s" "eth_sign" 1000 77).2.2.2.2.2 301000 rfl⟩

/-! ## Claim C7 -/

theorem disconnect_sessions_sub {st : SMState} {topic : String} {now_ms : Nat} {pubOk : Bool}
    {kv : String × SessionData}
    (h : kv ∈ (SessionManager.disconnect st topic now_ms pubOk).state.sessions) :
    kv ∈ st.sessions := by
  unfold SessionManager.disconnect at h
  cases hm : mapGet st.sessions topic <;> rw [hm] at h <;> dsimp only at h
  · exact h
  · rw [mapDel_mapSet] at h
    exact mem_mapDel h

theorem disconnect_sessions_key {st : SMState} {topic : String} {now_ms : Nat} {pubOk : Bool}
    {kv : String × SessionData}
    (h : kv ∈ (SessionManager.disconnect st topic now_ms pubOk).state.sessions) :
    kv.1 ≠ topic := by
  unfold SessionManager.disconnect at h
  cases hm : mapGet st.sessions topic <;> rw [hm] at h <;> dsimp only at h
  · exact (mapGet_eq_none_iff st.sessions topic).mp hm kv h
  · rw [mapDel_mapSet] at h
    exact key_not_mem_mapDel h

theorem disconnect_proposals_eq (st : SMState) (topic : String) (now_ms : Nat) (pubOk : Bool) :
    (SessionManager.disconnect st topic now_ms pubOk).state.proposals = st.proposals := by
  unfold SessionManager.disconnect
  cases hm : mapGet st.sessions topic <;> rfl

theorem cleanupSessions_sub {now_ms : Nat} {pubOk : Bool} {l : List SessionData} {st : SMState}
    {kv : String × SessionData}
    (h : kv ∈ (SessionManager.cleanupSessions now_ms pubOk l st).sessions) :
    kv ∈ st.sessions := by
  induction l generalizing st with
  | nil => exact h
  | cons s rest ih =>
    unfold SessionManager.cleanupSessions at h
    split at h
    · exact disconnect_sessions_sub (ih h)
    · exact ih h

theorem cleanupSessions_key {now_ms : Nat} {pubOk : Bool} {l : List SessionData} {st : SMState}
    {s : SessionData} (hs : s ∈ l) (hexp : now_ms ≥ s.expiry * 1000)
    {kv : String × SessionData}
    (h : kv ∈ (SessionManager.cleanupSessions now_ms pubOk l st).sessions) :
    kv.1 ≠ s.topic := by
  induction l generalizing st with
  | nil => cases hs
  | cons s0 rest ih =>
    unfold SessionManager.cleanupSessions at h
    rcases List.mem_cons.mp hs with heq | hmem
    · subst heq
      rw [if_pos hexp] at h
      exact disconnect_sessions_key (cleanupSessions_sub h)
    · split at h
      · exact ih hmem h
      · exact ih hmem h

theorem cleanupSessions_proposals_eq (now_ms : Nat) (pubOk : Bool) (l : List SessionData)
    (st : SMState) :
    (SessionManager.cleanupSessions now_ms pubOk l st).proposals = st.proposals := by
  induction l generalizing st with
  | nil => rfl
  | cons s rest ih =>
    unfold SessionManager.cleanupSessions
    split
    · rw [ih, disconnect_proposals_eq]
    · exact ih st

theorem cleanupProposals_sub {now_ms : Nat} {l : List SessionProposal}
    {m : List (Nat × SessionProposal)} {kv : Nat × SessionProposal}
    (h : kv ∈ SessionManager.cleanupProposals now_ms l m) : kv ∈ m := by
  induction l generalizing m with
  | nil => exact h
  | cons p rest ih =>
    unfold SessionManager.cleanupProposals at h
    split at h
    · exact mem_mapDel (ih h)
    · exact ih h

theorem cleanupProposals_key {now_ms : Nat} {l : List SessionProposal}
    {m : List (Nat × SessionProposal)} {p : SessionProposal}
    (hp : p ∈ l) (hexp : now_ms ≥ p.expiryTimestamp)
    {kv : Nat × SessionProposal}
    (h : kv ∈ SessionManager.cleanupProposals now_ms l m) : kv.1 ≠ p.proposalId := by
  induction l generalizing m with
  | nil => cases hp
  | cons p0 rest ih =>
    unfold SessionManager.cleanupProposals at h
    rcases List.mem_cons.mp hp with heq | hmem
    · subst heq
      rw [if_pos hexp] at h
      exact key_not_mem_mapDel (cleanupProposals_sub h)
    · split at h
      · exact ih hmem h
      · exact ih hmem h

/-- C7: expired records are unobservable after the relevant cleanup: an expired
Pairing is absent from `PairingStore.getAll`; `PairingStore.get` on an expired
pairing deletes it and reports it absent; and after `cleanupExpired` every
remaining session and proposal is unexpired (expired ones were removed by the
sweep), assuming store keys match record topics/ids as every writer maintains. -/
theorem c7_expiry_unobservable :
    (∀ cache now_s (p : Pairing), p ∈ PairingStore.getAll cache now_s →
      PairingStore.isExpired now_s p = false)
    ∧ (∀ cache now_s t (p : Pairing), mapGet cache t = some p →
        PairingStore.isExpired now_s p = true →
        (PairingStore.get cache now_s t).1 = none
        ∧ mapGet (PairingStore.get cache now_s t).2 t = none)
    ∧ (∀ st : SMState, ∀ now_ms pubOk,
        (∀ kv ∈ st.sessions, kv.1 = kv.2.topic) →
        ∀ kv ∈ (SessionManager.cleanupExpired st now_ms pubOk).sessions,
          now_ms < kv.2.expiry * 1000)
    ∧ (∀ st : SMState, ∀ now_ms pubOk,
        (∀ kv ∈ st.proposals, kv.1 = kv.2.proposalId) →
        ∀ kv ∈ (SessionManager.cleanupExpired st now_ms pubOk).proposals,
          now_ms < kv.2.expiryTimestamp) := by
  refine ⟨?_, ?_, ?_, ?_⟩
  · intro cache now_s p hp
    unfold PairingStore.getAll at hp
    have := List.of_mem_filter hp
    simpa using this
  · intro cache now_s t p hget hexp
    have hdead : PairingStore.get cache now_s t = (none, mapDel cache t) := by
      unfold PairingStore.get
      rw [hget]
      simp [hexp]
    rw [hdead]
    exact ⟨rfl, mapGet_mapDel_self cache t⟩
  · intro st now_ms pubOk hkeys kv hkv
    by_contra hc
    push_neg at hc
    have hmem : kv ∈ st.sessions := cleanupSessions_sub hkv
    have hval : kv.2 ∈ mapValues st.sessions := List.mem_map_of_mem _ hmem
    exact cleanupSessions_key hval hc hkv (hkeys kv hmem)
  · intro st now_ms pubOk hkeys kv hkv
    by_contra hc
    push_neg at hc
    have hprops : (SessionManager.cleanupExpired st now_ms pubOk).proposals
        = SessionManager.cleanupProposals now_ms
            (mapValues (SessionManager.cleanupSessions now_ms pubOk (mapValues st.sessions) st).proposals)
            (SessionManager.cleanupSessions now_ms pubOk (mapValues st.sessions) st).proposals := rfl
    rw [hprops, cleanupSessions_proposals_eq] at hkv
    have hmem : kv ∈ st.proposals := cleanupProposals_sub hkv
    have hval : kv.2 ∈ mapValues st.proposals := List.mem_map_of_mem _ hmem
    exact cleanupProposals_key hval hc hkv (hkeys kv hmem)

/-- C7 witness: at time 200 s the expired pairing (expiry 100) is gone from
`getAll` and lazily deleted by `get`; at 200000 ms the sweep of a store holding
an expired session and an expired proposal leaves only unexpired records. -/
theorem c7_expiry_unobservable_witness :
    PairingStore.isExpired 200 samplePairingActive = true
    ∧ ((PairingStore.get pmWithActive.store 200 "t").1 = none
       ∧ mapGet (PairingStore.get pmWithActive.store 200 "t").2 "t" = none)
    ∧ (∀ kv ∈ (SessionManager.cleanupExpired smWithSettled 200000 true).sessions,
        200000 < kv.2.expiry * 1000)
    ∧ (∀ kv ∈ (SessionManager.cleanupExpired smWithProposal 2000 true).proposals,
        2000 < kv.2.expiryTimestamp) :=
  ⟨by decide,
   c7_expiry_unobservable.2.1 pmWithActive.store 200 "t" samplePairingActive rfl (by decide),
   c7_expiry_unobservable.2.2.1 smWithSettled 200000 true (by decide),
   c7_expiry_unobservable.2.2.2 smWithProposal 2000 true (by decide)⟩

/-! ## Claim C2 -/

theorem validateOne_ok_iff (nss : SessionNamespaces) (key : String) (r : SessionNamespace) :
    SessionManager.validateOne nss key r = .ok () ↔ nsCoveredB nss key r = true := by
  unfold SessionManager.validateOne nsCoveredB
  cases hg : SessionManager.nsGet nss key
  · simp
  · rename_i ns
    dsimp only
    split_ifs with h1 h2 h3 <;>
      simp_all [List.isEmpty_iff, List.filter_eq_nil_iff, List.all_eq_true]

theorem validateOne_err_code {nss : SessionNamespaces} {key : String} {r : SessionNamespace}
    {e : SessionError} (h : SessionManager.validateOne nss key r = .error e) :
    e.code = SessionErrorCode.UNSUPPORTED_CHAINS
    ∨ e.code = SessionErrorCode.UNSUPPORTED_METHODS
    ∨ e.code = SessionErrorCode.UNSUPPORTED_EVENTS := by
  unfold SessionManager.validateOne at h
  cases hg : SessionManager.nsGet nss key <;> rw [hg] at h
  · injection h with h
    subst h
    left; rfl
  · dsimp only at h
    split_ifs at h
    · injection h with h; subst h; right; right; rfl
    · injection h with h; subst h; right; left; rfl
    · injection h with h; subst h; left; rfl

theorem validateRequired_ok_iff (req nss : SessionNamespaces) :
    SessionManager.validateRequired req nss = .ok () ↔ nsCoversB nss req = true := by
  induction req with
  | nil => simp [SessionManager.validateRequired, nsCoversB]
  | cons kr rest ih =>
    obtain ⟨key, r⟩ := kr
    unfold SessionManager.validateRequired
    cases hv : SessionManager.validateOne nss key r with
    | error e =>
      have hnc : nsCoveredB nss key r ≠ true := by
        intro hc
        rw [← validateOne_ok_iff] at hc
        rw [hv] at hc
        exact (Except.noConfusion hc)
      simp [nsCoversB, List.all_eq_true]
      intro hc
      exact absurd hc hnc
    | ok u =>
      cases u
      have hc : nsCoveredB nss key r = true := (validateOne_ok_iff nss key r).mp hv
      rw [ih]
      simp [nsCoversB, List.all_eq_true, hc]

theorem validateRequired_err_code {req nss : SessionNamespaces} {e : SessionError}
    (h : SessionManager.validateRequired req nss = .error e) :
    e.code = SessionErrorCode.UNSUPPORTED_CHAINS
    ∨ e.code = SessionErrorCode.UNSUPPORTED_METHODS
    ∨ e.code = SessionErrorCode.UNSUPPORTED_EVENTS := by
  induction req with
  | nil => exact (Except.noConfusion h)
  | cons kr rest ih =>
    obtain ⟨key, r⟩ := kr
    unfold SessionManager.validateRequired at h
    cases hv : SessionManager.validateOne nss key r <;> rw [hv] at h
    · injection h with h
      subst h
      exact validateOne_err_code hv
    · exact ih h

theorem validateAccountList_ok {accounts : List String}
    (h : ∀ a ∈ accounts, SessionManager.isValidAccount a = true) :
    SessionManager.validateAccountList accounts = .ok () := by
  induction accounts with
  | nil => rfl
  | cons a rest ih =>
    unfold SessionManager.validateAccountList
    rw [if_pos (h a (List.mem_cons_self a rest))]
    exact ih (fun x hx => h x (List.mem_cons_of_mem a hx))

theorem validateAccounts_ok {nss : SessionNamespaces} (h : accountsOkB nss = true) :
    SessionManager.validateAccounts nss = .ok () := by
  induction nss with
  | nil => rfl
  | cons kv rest ih =>
    obtain ⟨k, v⟩ := kv
    rw [accountsOkB, List.all_eq_true] at h
    have hrest : accountsOkB rest = true := by
      rw [accountsOkB, List.all_eq_true]
      exact fun x hx => h x (List.mem_cons_of_mem _ hx)
    have hself := h (k, v) (List.mem_cons_self _ _)
    dsimp only at hself
    unfold SessionManager.validateAccounts
    cases ha : v.accounts with
    | none => exact ih hrest
    | some accounts =>
      rw [ha, Option.getD_some] at hself
      dsimp only
      rw [validateAccountList_ok (List.all_eq_true.mp hself)]
      exact ih hrest

/-- C2: with the proposal present and unexpired, `approve` raises a
ValidationFailure-class SessionError (UNSUPPORTED_CHAINS / _METHODS / _EVENTS)
whenever the granted namespaces fail to cover some required key, chain, method
or event; and when they are a per-key superset and all account strings are
well-formed, validation passes and approve returns a SETTLED SessionData
carrying the granted namespaces. -/
theorem c2_approve_namespace_coverage (crypto : CryptoOracle) (st : SMState) (now_ms : Nat)
    (params : ApproveSessionParams) (kp : KeyPair) (meta : SessionMetadata)
    (proposal : SessionProposal)
    (hfound : mapGet st.proposals params.proposalId = some proposal)
    (hfresh : ¬ now_ms > proposal.expiryTimestamp) :
    (nsCoversB params.namespaces proposal.requiredNamespaces = false →
      ∃ e, (SessionManager.approve crypto st now_ms params kp meta true).result
          = .error (.session e)
        ∧ (e.code = SessionErrorCode.UNSUPPORTED_CHAINS
           ∨ e.code = SessionErrorCode.UNSUPPORTED_METHODS
           ∨ e.code = SessionErrorCode.UNSUPPORTED_EVENTS))
    ∧ (nsCoversB params.namespaces proposal.requiredNamespaces = true →
       accountsOkB params.namespaces = true →
       ∃ s, (SessionManager.approve crypto st now_ms params kp meta true).result = .ok s
         ∧ s.status = SessionStatus.settled
         ∧ s.namespaces = params.namespaces) := by
  constructor
  · intro hcov
    cases hv : SessionManager.validateRequired proposal.requiredNamespaces params.namespaces with
    | error e =>
      refine ⟨e, ?_, validateRequired_err_code hv⟩
      have hvn : SessionManager.validateNamespaces params.namespaces
          (some proposal.requiredNamespaces) = .error e := by
        unfold SessionManager.validateNamespaces
        dsimp only
        rw [hv]
      simp [SessionManager.approve, hfound, hfresh, hvn]
    | ok u =>
      cases u
      rw [validateRequired_ok_iff] at hv
      rw [hv] at hcov
      exact (Bool.noConfusion hcov)
  · intro hcov hacc
    have hv : SessionManager.validateRequired proposal.requiredNamespaces params.namespaces
        = .ok () := (validateRequired_ok_iff _ _).mpr hcov
    have hvn : SessionManager.validateNamespaces params.namespaces
        (some proposal.requiredNamespaces) = .ok () := by
      unfold SessionManager.validateNamespaces
      dsimp only
      rw [hv]
      exact validateAccounts_ok hacc
    refine ⟨{
        topic := crypto.generateSharedKey kp.privateKey proposal.proposer.publicKey
        pairingTopic := proposal.pairingTopic
        relay := proposal.relay
        expiry := SessionManager.calcExpiry now_ms SessionManager.SESSION_EXPIRY
        acknowledged := false
        controller := kp.publicKey
        namespaces := params.namespaces
        requiredNamespaces := proposal.requiredNamespaces
        optionalNamespaces := proposal.optionalNamespaces
        self := { publicKey := kp.publicKey, metadata := meta }
        peer := { publicKey := proposal.proposer.publicKey, metadata := proposal.proposer.metadata }
        status := SessionStatus.settled
        createdAt := now_ms
        updatedAt := now_ms
        proposalId := some params.proposalId }, ?_, rfl, rfl⟩
    simp [SessionManager.approve, hfound, hfresh, hvn]

/-- C2 witness: at the concrete stored proposal, empty granted namespaces are
rejected with a validation failure, and a covering grant with a well-formed
account is approved as SETTLED. -/
theorem c2_approve_namespace_coverage_witness :
    (∃ e, (SessionManager.approve sampleCrypto smWithProposal 500
        { proposalId := 7, namespaces := [] } ⟨"pub", "priv"⟩ sampleSessionMeta true).result
        = .error (.session e)
      ∧ (e.code = SessionErrorCode.UNSUPPORTED_CHAINS
         ∨ e.code = SessionErrorCode.UNSUPPORTED_METHODS
         ∨ e.code = SessionErrorCode.UNSUPPORTED_EVENTS))
    ∧ (∃ s, (SessionManager.approve sampleCrypto smWithProposal 500
        { proposalId := 7, namespaces := [("eip155", sampleGrantedNs)] }
        ⟨"pub", "priv"⟩ sampleSessionMeta true).result = .ok s
      ∧ s.status = SessionStatus.settled
      ∧ s.namespaces = [("eip155", sampleGrantedNs)]) :=
  ⟨(c2_approve_namespace_coverage sampleCrypto smWithProposal 500
      { proposalId := 7, namespaces := [] } ⟨"pub", "priv"⟩ sampleSessionMeta
      sampleProposal rfl (by decide)).1 (by decide),
   (c2_approve_namespace_coverage sampleCrypto smWithProposal 500
      { proposalId := 7, namespaces := [("eip155", sampleGrantedNs)] }
      ⟨"pub", "priv"⟩ sampleSessionMeta sampleProposal rfl (by decide)).2
      (by decide) (by decide)⟩

/-! ## Claim C3 -/

theorem splitOnChar_ne_nil (c : Char) (xs : List Char) : splitOnChar c xs ≠ [] := by
  cases xs with
  | nil => simp [splitOnChar]
  | cons x rest =>
    show (match splitOnChar c rest with
          | [] => [[]]
          | h :: t => if x = c then [] :: h :: t else (x :: h) :: t) ≠ []
    cases h : splitOnChar c rest with
    | nil => simp
    | cons hh tt =>
      by_cases hx : x = c <;> simp [hx]

theorem splitOnChar_not_mem {c : Char} {xs : List Char} (h : c ∉ xs) :
    splitOnChar c xs = [xs] := by
  induction xs with
  | nil => rfl
  | cons x rest ih =>
    have hx : ¬ (x = c) := fun habs => h (habs ▸ List.mem_cons_self x rest)
    have hrest : c ∉ rest := fun habs => h (List.mem_cons_of_mem x habs)
    unfold splitOnChar
    rw [ih hrest]
    simp [hx]

theorem splitOnChar_append {c : Char} {xs : List Char} (h : c ∉ xs) (ys : List Char) :
    splitOnChar c (xs ++ c :: ys) = xs :: splitOnChar c ys := by
  induction xs with
  | nil =>
    simp only [List.nil_append]
    cases hs : splitOnChar c ys with
    | nil => exact absurd hs (splitOnChar_ne_nil c ys)
    | cons hh tt =>
      show (match splitOnChar c ys with
            | [] => [[]]
            | h :: t => if c = c then [] :: h :: t else (c :: h) :: t) = [] :: hh :: tt
      rw [hs]
      simp
  | cons x rest ih =>
    have hx : ¬ (x = c) := fun habs => h (habs ▸ List.mem_cons_self x _)
    have hrest : c ∉ rest := fun habs => h (List.mem_cons_of_mem x habs)
    rw [List.cons_append]
    show (match splitOnChar c (rest ++ c :: ys) with
          | [] => [[]]
          | h :: t => if x = c then [] :: h :: t else (x :: h) :: t)
        = (x :: rest) :: splitOnChar c ys
    rw [ih hrest]
    simp [hx]

theorem breakAtFirst_append {c : Char} {xs : List Char} (h : c ∉ xs) (ys : List Char) :
    breakAtFirst c (xs ++ c :: ys) = (xs, some ys) := by
  induction xs with
  | nil => simp [breakAtFirst]
  | cons x rest ih =>
    have hx : ¬ (x = c) := fun habs => h (habs ▸ List.mem_cons_self x _)
    have hrest : c ∉ rest := fun habs => h (List.mem_cons_of_mem x habs)
    rw [List.cons_append]
    unfold breakAtFirst
    rw [if_neg hx, ih hrest]

theorem unreserved_ne_special {c : Char} (h : isUrlUnreserved c = true) :
    c ≠ '@' ∧ c ≠ '?' ∧ c ≠ '&' ∧ c ≠ '=' ∧ c ≠ '%' ∧ c ≠ '+' := by
  refine ⟨?_, ?_, ?_, ?_, ?_, ?_⟩ <;> rintro rfl <;> exact absurd h (by decide)

theorem formUrlEncode_id {l : List Char} (h : ∀ c ∈ l, isUrlUnreserved c = true) :
    formUrlEncode l = l := by
  induction l with
  | nil => rfl
  | cons c rest ih =>
    unfold formUrlEncode
    rw [ih (fun x hx => h x (List.mem_cons_of_mem c hx))]
    have hc := h c (List.mem_cons_self c rest)
    unfold percentEncodeChar
    rw [if_pos hc]
    rfl

theorem percentDecode_id : ∀ (l : List Char), (∀ x ∈ l, x ≠ '%' ∧ x ≠ '+') →
    percentDecode l = l
  | [], _ => rfl
  | [c], h => by
    have hc := h c (by simp)
    show (if c = '+' then [' '] else [c]) = [c]
    rw [if_neg hc.2]
  | [c, d], h => by
    have hc := h c (by simp)
    have hd := h d (by simp)
    have ih := percentDecode_id [d] (by
      intro x hx
      simp at hx
      subst hx
      exact hd)
    show (if c = '+' then ' ' :: percentDecode [d] else c :: percentDecode [d]) = [c, d]
    rw [if_neg hc.2, ih]
  | c :: h1 :: h2 :: rest, h => by
    have hc := h c (by simp)
    have ih := percentDecode_id (h1 :: h2 :: rest)
      (fun x hx => h x (List.mem_cons_of_mem _ hx))
    show (if c = '+' then ' ' :: percentDecode (h1 :: h2 :: rest)
          else if c = '%' then
            match hexVal h1, hexVal h2 with
            | some v1, some v2 => Char.ofNat (16 * v1 + v2) :: percentDecode rest
            | _, _ => '%' :: percentDecode (h1 :: h2 :: rest)
          else c :: percentDecode (h1 :: h2 :: rest))
        = c :: h1 :: h2 :: rest
    rw [if_neg hc.2, if_neg hc.1, ih]

theorem parsePair_wellformed {name val : List Char}
    (hname : '=' ∉ name) (hnameid : percentDecode name = name)
    (hval : ∀ x ∈ val, x ≠ '%' ∧ x ≠ '+') :
    parsePair (name ++ '=' :: val) = (name, val) := by
  unfold parsePair
  rw [breakAtFirst_append hname]
  dsimp only
  rw [hnameid, percentDecode_id val hval]

theorem unreserved_no_amp {l : List Char} (h : ∀ c ∈ l, isUrlUnreserved c = true) :
    '&' ∉ l :=
  fun hm => (unreserved_ne_special (h _ hm)).2.2.1 rfl

theorem unreserved_no_decode_specials {l : List Char}
    (h : ∀ c ∈ l, isUrlUnreserved c = true) : ∀ x ∈ l, x ≠ '%' ∧ x ≠ '+' :=
  fun x hx => ⟨(unreserved_ne_special (h x hx)).2.2.2.2.1,
               (unreserved_ne_special (h x hx)).2.2.2.2.2⟩

theorem searchParamsParse_pairs_two {P K : List Char}
    (hP : ∀ c ∈ P, isUrlUnreserved c = true)
    (hK : ∀ c ∈ K, isUrlUnreserved c = true) :
    searchParamsParse ("relay-protocol=".data ++ P ++ "&symKey=".data ++ K)
      = [("relay-protocol".data, P), ("symKey".data, K)] := by
  have hshape : "relay-protocol=".data ++ P ++ "&symKey=".data ++ K
      = ("relay-protocol".data ++ '=' :: P) ++ '&' :: ("symKey".data ++ '=' :: K) := by
    simp [List.append_assoc]
  have hampA : '&' ∉ ("relay-protocol".data ++ '=' :: P) := by
    intro hm
    rcases List.mem_append.mp hm with hm | hm
    · exact absurd hm (by decide)
    · rcases List.mem_cons.mp hm with hm | hm
      · exact absurd hm (by decide)
      · exact unreserved_no_amp hP hm
  have hampB : '&' ∉ ("symKey".data ++ '=' :: K) := by
    intro hm
    rcases List.mem_append.mp hm with hm | hm
    · exact absurd hm (by decide)
    · rcases List.mem_cons.mp hm with hm | hm
      · exact absurd hm (by decide)
      · exact unreserved_no_amp hK hm
  rw [hshape]
  have hsp : searchParamsParse (("relay-protocol".data ++ '=' :: P)
      ++ '&' :: ("symKey".data ++ '=' :: K))
      = searchParamsList (("relay-protocol".data ++ '=' :: P)
      ++ '&' :: ("symKey".data ++ '=' :: K)) := rfl
  rw [hsp]
  unfold searchParamsList
  rw [splitOnChar_append hampA, splitOnChar_not_mem hampB]
  simp only [List.filter, List.map]
  rw [parsePair_wellformed (by decide) (by rfl) (unreserved_no_decode_specials hP),
      parsePair_wellformed (by decide) (by rfl) (unreserved_no_decode_specials hK)]

theorem searchParamsParse_pairs_three {P K D : List Char}
    (hP : ∀ c ∈ P, isUrlUnreserved c = true)
    (hK : ∀ c ∈ K, isUrlUnreserved c = true)
    (hD : ∀ c ∈ D, isUrlUnreserved c = true) :
    searchParamsParse ("relay-protocol=".data ++ P ++ "&symKey=".data ++ K
        ++ "&relay-data=".data ++ D)
      = [("relay-protocol".data, P), ("symKey".data, K), ("relay-data".data, D)] := by
  have hshape : "relay-protocol=".data ++ P ++ "&symKey=".data ++ K
        ++ "&relay-data=".data ++ D
      = ("relay-protocol".data ++ '=' :: P)
        ++ '&' :: (("symKey".data ++ '=' :: K)
        ++ '&' :: ("relay-data".data ++ '=' :: D)) := by
    simp [List.append_assoc]
  have hampA : '&' ∉ ("relay-protocol".data ++ '=' :: P) := by
    intro hm
    rcases List.mem_append.mp hm with hm | hm
    · exact absurd hm (by decide)
    · rcases List.mem_cons.mp hm with hm | hm
      · exact absurd hm (by decide)
      · exact unreserved_no_amp hP hm
  have hampB : '&' ∉ ("symKey".data ++ '=' :: K) := by
    intro hm
    rcases List.mem_append.mp hm with hm | hm
    · exact absurd hm (by decide)
    · rcases List.mem_cons.mp hm with hm | hm
      · exact absurd hm (by decide)
      · exact unreserved_no_amp hK hm
  have hampC : '&' ∉ ("relay-data".data ++ '=' :: D) := by
    intro hm
    rcases List.mem_append.mp hm with hm | hm
    · exact absurd hm (by decide)
    · rcases List.mem_cons.mp hm with hm | hm
      · exact absurd hm (by decide)
      · exact unreserved_no_amp hD hm
  rw [hshape]
  have hsp : searchParamsParse (("relay-protocol".data ++ '=' :: P)
      ++ '&' :: (("symKey".data ++ '=' :: K) ++ '&' :: ("relay-data".data ++ '=' :: D)))
      = searchParamsList (("relay-protocol".data ++ '=' :: P)
      ++ '&' :: (("symKey".data ++ '=' :: K) ++ '&' :: ("relay-data".data ++ '=' :: D))) := rfl
  rw [hsp]
  unfold searchParamsList
  rw [splitOnChar_append hampA, splitOnChar_append hampB, splitOnChar_not_mem hampC]
  simp only [List.filter, List.map]
  rw [parsePair_wellformed (by decide) (by rfl) (unreserved_no_decode_specials hP),
      parsePair_wellformed (by decide) (by rfl) (unreserved_no_decode_specials hK),
      parsePair_wellformed (by decide) (by rfl) (unreserved_no_decode_specials hD)]

theorem jsFalsy_some_of_ne {l : List Char} (h : l ≠ []) : jsFalsy (some l) = false := by
  cases l with
  | nil => exact absurd rfl h
  | cons c rest => rfl

theorem eq_empty_of_data_eq_nil {s : String} (h : s.data = []) : s = "" := by
  cases s with
  | mk l =>
    simp only [String.data] at h
    subst h
    rfl

theorem decode_shaped (T q : List Char) (hTne : T ≠ [])
    (hT : ∀ c ∈ T, c ≠ '@' ∧ c ≠ '?') (hq : '?' ∉ q) (hqne : q ≠ [])
    {RP K : List Char}
    (hRP : spGet (searchParamsParse q) "relay-protocol".data = some RP) (hRPne : RP ≠ [])
    (hK : spGet (searchParamsParse q) "symKey".data = some K) (hKne : K ≠ []) :
    PairingURIUtil.decode (String.mk ('w' :: 'c' :: ':' :: (T ++ '@' :: '2' :: '?' :: q)))
      = .ok { topic := String.mk T
              version := 2
              symKey := String.mk K
              relay := { protocol := String.mk RP
                         data := match spGet (searchParamsParse q) "relay-data".data with
                                 | none => none
                                 | some [] => none
                                 | some d => some (String.mk d) } } := by
  have hstep : PairingURIUtil.decode
        (String.mk ('w' :: 'c' :: ':' :: (T ++ '@' :: '2' :: '?' :: q)))
      = PairingURIUtil.decodeBody (T ++ '@' :: '2' :: '?' :: q) := rfl
  rw [hstep]
  have hsplitq : splitOnChar '?' (T ++ '@' :: '2' :: '?' :: q) = [T ++ ['@', '2'], q] := by
    have hnm : '?' ∉ T ++ ['@', '2'] := by
      intro hm
      rcases List.mem_append.mp hm with hm | hm
      · exact (hT _ hm).2 rfl
      · exact absurd hm (by decide)
    have hshape : T ++ '@' :: '2' :: '?' :: q = (T ++ ['@', '2']) ++ '?' :: q := by
      simp [List.append_assoc]
    rw [hshape, splitOnChar_append hnm q, splitOnChar_not_mem hq]
  have hsplitT : splitOnChar '@' (T ++ ['@', '2']) = [T, ['2']] := by
    have hnm : '@' ∉ T := fun hm => (hT _ hm).1 rfl
    have h2 : splitOnChar '@' ['2'] = [['2']] := by decide
    calc splitOnChar '@' (T ++ '@' :: ['2'])
        = T :: splitOnChar '@' ['2'] := splitOnChar_append hnm ['2']
      _ = [T, ['2']] := by rw [h2]
  have hpi : PairingURIUtil.parseIntJS ['2'] = some 2 := by decide
  simp only [PairingURIUtil.decodeBody, hsplitq, List.get?, Option.getD_some,
    jsFalsy_some_of_ne (show T ++ ['@', '2'] ≠ [] by simp), jsFalsy_some_of_ne hqne,
    hsplitT, jsFalsy_some_of_ne hTne,
    jsFalsy_some_of_ne (show (['2'] : List Char) ≠ [] by decide), hpi,
    hRP, hK, jsFalsy_some_of_ne hRPne, jsFalsy_some_of_ne hKne]
  simp [PairingURIUtil.VERSION]

/-- C3 counterexample: the topic is never URL-encoded, so a topic containing
`@` breaks the round trip — encode succeeds but decode mis-splits topic and
version and throws, refuting `decode(encode(topic, symKey, relay))` for every
topic. -/
theorem c3_roundtrip_counterexample :
    PairingURIUtil.encode "x@3" "k" { protocol := "irn" }
      = .ok "wc:x@3@2?relay-protocol=irn&symKey=k"
    ∧ PairingURIUtil.decode "wc:x@3@2?relay-protocol=irn&symKey=k"
      = .error "Failed to parse URI: Unsupported version" := by
  constructor
  · rfl
  · rfl

/-- C3 amended: for topics free of `@`/`?` and symKey/protocol/relay-data made
of urlencoded-unreserved characters (hex strings in particular), the round trip
is exact on topic, symKey and relay.protocol; and every URI decode accepts has
version 2 and non-empty topic, symKey and relay-protocol components (so decode
throws on any other parsed version or missing component). -/
theorem c3_uri_codec_amended :
    (∀ (topic symKey : String) (relay : RelayProtocol),
      topic ≠ "" → symKey ≠ "" → relay.protocol ≠ "" →
      (∀ c ∈ topic.data, c ≠ '@' ∧ c ≠ '?') →
      (∀ c ∈ symKey.data, isUrlUnreserved c = true) →
      (∀ c ∈ relay.protocol.data, isUrlUnreserved c = true) →
      (∀ d, relay.data = some d → ∀ c ∈ d.data, isUrlUnreserved c = true) →
      ∃ uri, PairingURIUtil.encode topic symKey relay = .ok uri
        ∧ ∃ parsed, PairingURIUtil.decode uri = .ok parsed
          ∧ parsed.topic = topic ∧ parsed.symKey = symKey
          ∧ parsed.relay.protocol = relay.protocol)
    ∧ (∀ (uri : String) (parsed : PairingURI),
        PairingURIUtil.decode uri = .ok parsed →
        parsed.version = 2 ∧ parsed.topic ≠ "" ∧ parsed.symKey ≠ ""
          ∧ parsed.relay.protocol ≠ "") := by
  constructor
  · intro topic symKey relay htne hkne hpne htopic hkey hproto hdata
    have hTne : topic.data ≠ [] := fun habs => htne (eq_empty_of_data_eq_nil habs)
    have hKne : symKey.data ≠ [] := fun habs => hkne (eq_empty_of_data_eq_nil habs)
    have hPne : relay.protocol.data ≠ [] := fun habs => hpne (eq_empty_of_data_eq_nil habs)
    have hcond : (decide (topic = "") || decide (symKey = "")) = false := by
      simp [htne, hkne]
    have hver : (toString PairingURIUtil.VERSION).data = ['2'] := rfl
    rcases hd : relay.data with _ | d
    · have hsp2 := searchParamsParse_pairs_two hproto hkey
      have hRP : spGet (searchParamsParse ("relay-protocol=".data ++ relay.protocol.data
            ++ "&symKey=".data ++ symKey.data)) "relay-protocol".data
          = some relay.protocol.data := by
        rw [hsp2]; rfl
      have hKg : spGet (searchParamsParse ("relay-protocol=".data ++ relay.protocol.data
            ++ "&symKey=".data ++ symKey.data)) "symKey".data
          = some symKey.data := by
        rw [hsp2]; rfl
      have hqq : '?' ∉ ("relay-protocol=".data ++ relay.protocol.data
          ++ "&symKey=".data ++ symKey.data) := by
        intro hm
        rcases List.mem_append.mp hm with hm | hm
        · rcases List.mem_append.mp hm with hm | hm
          · rcases List.mem_append.mp hm with hm | hm
            · exact absurd hm (by decide)
            · exact (unreserved_ne_special (hproto _ hm)).2.1 rfl
          · exact absurd hm (by decide)
        · exact (unreserved_ne_special (hkey _ hm)).2.1 rfl
      have hq0ne : ("relay-protocol=".data ++ relay.protocol.data
          ++ "&symKey=".data ++ symKey.data) ≠ [] := by
        intro habs
        rcases List.append_eq_nil.mp habs with ⟨habs1, _⟩
        rcases List.append_eq_nil.mp habs1 with ⟨habs2, _⟩
        rcases List.append_eq_nil.mp habs2 with ⟨habs3, _⟩
        exact absurd habs3 (by decide)
      refine ⟨String.mk ('w' :: 'c' :: ':' :: (topic.data ++ '@' :: '2' :: '?' ::
          ("relay-protocol=".data ++ relay.protocol.data
            ++ "&symKey=".data ++ symKey.data))), ?_, ?_⟩
      · simp only [PairingURIUtil.encode, hd, formUrlEncode_id hkey, formUrlEncode_id hproto,
          hcond, hver]
        simp [List.cons_append, List.nil_append, List.append_assoc]
      · exact ⟨_, decode_shaped topic.data _ hTne htopic hqq hq0ne hRP hPne hKg hKne,
          rfl, rfl, rfl⟩
    · have hdd : ∀ c ∈ d.data, isUrlUnreserved c = true := hdata d hd
      have hsp3 := searchParamsParse_pairs_three hproto hkey hdd
      have hRP : spGet (searchParamsParse ("relay-protocol=".data ++ relay.protocol.data
            ++ "&symKey=".data ++ symKey.data ++ "&relay-data=".data ++ d.data))
            "relay-protocol".data
          = some relay.protocol.data := by
        rw [hsp3]; rfl
      have hKg : spGet (searchParamsParse ("relay-protocol=".data ++ relay.protocol.data
            ++ "&symKey=".data ++ symKey.data ++ "&relay-data=".data ++ d.data))
            "symKey".data
          = some symKey.data := by
        rw [hsp3]; rfl
      have hqq : '?' ∉ ("relay-protocol=".data ++ relay.protocol.data
          ++ "&symKey=".data ++ symKey.data ++ "&relay-data=".data ++ d.data) := by
        intro hm
        rcases List.mem_append.mp hm with hm | hm
        · rcases List.mem_append.mp hm with hm | hm
          · rcases List.mem_append.mp hm with hm | hm
            · rcases List.mem_append.mp hm with hm | hm
              · rcases List.mem_append.mp hm with hm | hm
                · exact absurd hm (by decide)
                · exact (unreserved_ne_special (hproto _ hm)).2.1 rfl
              · exact absurd hm (by decide)
            · exact (unreserved_ne_special (hkey _ hm)).2.1 rfl
          · exact absurd hm (by decide)
        · exact (unreserved_ne_special (hdd _ hm)).2.1 rfl
      have hq0ne : ("relay-protocol=".data ++ relay.protocol.data
          ++ "&symKey=".data ++ symKey.data ++ "&relay-data=".data ++ d.data) ≠ [] := by
        intro habs
        rcases List.append_eq_nil.mp habs with ⟨habs1, _⟩
        rcases List.append_eq_nil.mp habs1 with ⟨habs2, _⟩
        rcases List.append_eq_nil.mp habs2 with ⟨habs3, _⟩
        rcases List.append_eq_nil.mp habs3 with ⟨habs4, _⟩
        rcases List.append_eq_nil.mp habs4 with ⟨habs5, _⟩
        exact absurd habs5 (by decide)
      refine ⟨String.mk ('w' :: 'c' :: ':' :: (topic.data ++ '@' :: '2' :: '?' ::
          ("relay-protocol=".data ++ relay.protocol.data ++ "&symKey=".data ++ symKey.data
            ++ "&relay-data=".data ++ d.data))), ?_, ?_⟩
      · simp only [PairingURIUtil.encode, hd, formUrlEncode_id hkey, formUrlEncode_id hproto,
          formUrlEncode_id hdd, hcond, hver]
        simp [List.cons_append, List.nil_append, List.append_assoc]
      · exact ⟨_, decode_shaped topic.data _ hTne htopic hqq hq0ne hRP hPne hKg hKne,
          rfl, rfl, rfl⟩
  · intro uri parsed h
    exact decode_ok_shape h

/-- C3 witness: the amended round trip applied at concrete hex-style inputs,
and the decode-shape conjunct at a concrete accepted URI. -/
theorem c3_uri_codec_amended_witness :
    (∃ uri, PairingURIUtil.encode "topicA" "k1" { protocol := "irn" } = .ok uri
      ∧ ∃ parsed, PairingURIUtil.decode uri = .ok parsed
        ∧ parsed.topic = "topicA" ∧ parsed.symKey = "k1"
        ∧ parsed.relay.protocol = "irn")
    ∧ ((PairingURIUtil.decode "wc:t@2?relay-protocol=irn&symKey=k1"
        = .ok { topic := "t", version := 2, symKey := "k1", relay := { protocol := "irn" } })
      ∧ ("t" : String) ≠ "" ∧ ("k1" : String) ≠ "" ∧ ("irn" : String) ≠ "") :=
  ⟨c3_uri_codec_amended.1 "topicA" "k1" { protocol := "irn" }
      (by decide) (by decide) (by decide) (by decide) (by decide) (by decide)
      (fun d hd => by cases hd),
   by
    have h := c3_uri_codec_amended.2 "wc:t@2?relay-protocol=irn&symKey=k1"
      { topic := "t", version := 2, symKey := "k1", relay := { protocol := "irn" } } rfl
    exact ⟨rfl, h.2.1, h.2.2.1, h.2.2.2⟩⟩

end YeyingWeb3
